import Mathlib

/-!
Verification development for the labrat HTML-extraction library.

The Rust sources are shallowly embedded: strings are lists of characters,
Rust machine integers are natural numbers with explicit bounds where they
matter, fallible Rust functions return `Except`, and functions that may
panic (integer overflow in debug builds, `unwrap`) return a dedicated
result type with a panic outcome.  External collaborators that the
specification places out of scope (the URL resolver `Url::join`, the
chrono date parser, the serde JSON decoder, the CSS selector engine) are
abstracted: the first three as function parameters, the last as a
query-result field on the document/element model.
-/

namespace Labrat

/-- Strings of the embedded program are lists of characters. -/
abbrev Str := List Char

/-! ## Decimal numerals

Embedding of `str::parse::<u64>` / `str::parse::<u8>` (an optional leading
plus sign, one or more ASCII digits, value within the integer bound) and of
the decimal formatting used by `format!` on unsigned integers. -/

/-- Strip a single leading plus sign, as the Rust unsigned-integer parser does. -/
def stripPlus (cs : Str) : Str :=
  match cs with
  | c :: r => if c = '+' then r else cs
  | [] => cs

/-- Numeric value of a digit string, most significant digit first. -/
def digitsVal (cs : Str) : Nat :=
  cs.foldl (fun a c => a * 10 + (c.toNat - 48)) 0

/-- Core of the Rust unsigned-integer parser, before the width bound. -/
def parseUIntCore (cs : Str) : Option Nat :=
  let ds := stripPlus cs
  if ds = [] then none
  else if ds.all Char.isDigit then some (digitsVal ds) else none

/-- Embeds `str::parse` at an unsigned integer type of `w` bits. -/
def parseUInt (w : Nat) (cs : Str) : Option Nat :=
  match parseUIntCore cs with
  | some n => if n < 2 ^ w then some n else none
  | none => none

/-- Embeds `str::parse::<u64>`. -/
def parseU64 : Str → Option Nat := parseUInt 64

/-- Embeds `str::parse::<u8>`. -/
def parseU8 : Str → Option Nat := parseUInt 8

/-- Decimal digits of a natural number, least significant first, with fuel
so that the definition is structural and kernel-reducible. -/
def toDigitsRevFuel : Nat → Nat → List Nat
  | 0, n => [n]
  | fuel + 1, n => if n < 10 then [n] else n % 10 :: toDigitsRevFuel fuel (n / 10)

/-- Decimal digits of a natural number, least significant first. -/
def toDigitsRev (n : Nat) : List Nat := toDigitsRevFuel n n

/-- Decimal representation of a natural number, embedding the `Display`
output of a Rust unsigned integer. -/
def natToChars (n : Nat) : Str :=
  (toDigitsRev n).reverse.map Nat.digitChar

/-! ## Character splitting

Embedding of the Rust `str::split(char)` iterator: splitting an empty
string yields one empty piece, and every separator occurrence starts a new
piece. -/

/-- Embeds `str::split(sep)`, collected into a list of pieces. -/
def splitCh (sep : Char) : Str → List Str
  | [] => [[]]
  | c :: cs =>
    match splitCh sep cs with
    | [] => [[]]
    | h :: t => if c = sep then [] :: h :: t else (c :: h) :: t

/-- Embeds `str::splitn(2, sep)`, collected: at most two pieces, split at
the first separator occurrence. -/
def splitn2 (sep : Char) (cs : Str) : List Str :=
  match splitCh sep cs with
  | [] => [cs]
  | [single] => [single]
  | h :: m :: t => [h, List.intercalate [sep] (m :: t)]

/-- Embeds `str::contains(&str)` (substring containment test). -/
def containsSeq (pat : Str) : Str → Bool
  | [] => pat.isEmpty
  | c :: cs => pat.isPrefixOf (c :: cs) || containsSeq pat cs

/-- The piece of a string before the first occurrence of a separator
substring; embeds `s.split(pat).next().unwrap()` for a substring pattern. -/
def beforeSeq (pat : Str) : Str → Str
  | [] => []
  | c :: cs => if pat.isPrefixOf (c :: cs) then [] else c :: beforeSeq pat cs

/-- ASCII whitespace test backing the embedded `str::trim`. -/
def isWS (c : Char) : Bool :=
  c = ' ' || c = '\t' || c = '\n' || c = '\r'

/-- Embeds `str::trim`. -/
def trimStr (s : Str) : Str :=
  ((s.dropWhile isWS).reverse.dropWhile isWS).reverse

/-! ## URL model

The `url` crate is an external collaborator; what the key codec observes of
a parsed URL is its path-segment iterator (`None` for cannot-be-a-base
URLs; the path `/a/b/` yields the segments `a`, `b`, `` since the crate
splits the path after the leading slash on every slash), its decoded query
pairs, and its fragment. -/

structure Url where
  pathSegments : Option (List Str)
  query : List (Str × Str)
  fragment : Option Str
deriving DecidableEq

/-! ## Key codec (src/keys.rs) -/

/-- Embeds `keys::FromUrlError`. -/
inductive FromUrlError where
  | missingSegment
  | parseIntError
deriving DecidableEq

/-- Embeds `resources::msg::submissions::Order`. -/
inductive Order where
  | ascending
  | descending
deriving DecidableEq

/-- Embeds `Order::text`. -/
def Order.text : Order → Str
  | .ascending => ("old").data
  | .descending => ("new").data

/-- Embeds `keys::SubmissionsKey`. -/
structure SubmissionsKey where
  order : Order
  after : Option Nat
deriving DecidableEq

/-- Embeds `SubmissionsKey::newest`. -/
def SubmissionsKey.newest : SubmissionsKey := ⟨Order.descending, none⟩

/-- Embeds `SubmissionsKey::oldest`, which is also `Default::default()`. -/
def SubmissionsKey.oldest : SubmissionsKey := ⟨Order.ascending, none⟩

/-- Embeds `TryFrom<&Url> for SubmissionsKey`. -/
def SubmissionsKey.tryFrom (u : Url) : Except FromUrlError SubmissionsKey :=
  match u.pathSegments with
  | none => .error .missingSegment
  | some segs =>
    match segs with
    | [] => .error .missingSegment
    | s1 :: rest1 =>
      if s1 = ("msg").data then
        match rest1 with
        | [] => .error .missingSegment
        | s2 :: rest2 =>
          if s2 = ("submissions").data then
            match rest2 with
            | [] => .ok SubmissionsKey.oldest
            | seg :: _ =>
              match splitCh '@' seg with
              | [] => .error .missingSegment
              | orderId :: _ =>
                match splitCh '~' orderId with
                | [] => .error .missingSegment
                | orderTxt :: parts =>
                  if orderTxt = ("new").data then
                    match parts with
                    | [] => .ok ⟨Order.descending, none⟩
                    | x :: _ =>
                      match parseU64 x with
                      | some a => .ok ⟨Order.descending, some a⟩
                      | none => .error .parseIntError
                  else if orderTxt = ("old").data then
                    match parts with
                    | [] => .ok ⟨Order.ascending, none⟩
                    | x :: _ =>
                      match parseU64 x with
                      | some a => .ok ⟨Order.ascending, some a⟩
                      | none => .error .parseIntError
                  else .error .missingSegment
          else .error .missingSegment
      else .error .missingSegment

/-- Embeds `From<&SubmissionsKey> for Url`: the formatted absolute URL
`https://www.furaffinity.net/msg/submissions/<order><after>@72/` parsed
back by the url crate, whose path segments are listed here. -/
def SubmissionsKey.toUrl (k : SubmissionsKey) : Url :=
  let afterPart : Str :=
    match k.after with
    | none => []
    | some id => '~' :: natToChars id
  { pathSegments := some [("msg").data, ("submissions").data,
      k.order.text ++ afterPart ++ ("@72").data, []],
    query := [], fragment := none }

/-- Embeds `keys::ViewKey`. -/
structure ViewKey where
  view_id : Nat
deriving DecidableEq

/-- Embeds `TryFrom<&Url> for ViewKey`. -/
def ViewKey.tryFrom (u : Url) : Except FromUrlError ViewKey :=
  match u.pathSegments with
  | none => .error .missingSegment
  | some segs =>
    match segs with
    | [] => .error .missingSegment
    | s1 :: rest =>
      if s1 = ("view").data then
        match rest with
        | [] => .error .missingSegment
        | t :: _ =>
          match parseU64 t with
          | some v => .ok ⟨v⟩
          | none => .error .parseIntError
      else .error .missingSegment

/-- Embeds `From<ViewKey> for Url`: the formatted URL
`https://www.furaffinity.net/view/<id>/` parsed back by the url crate. -/
def ViewKey.toUrl (k : ViewKey) : Url :=
  { pathSegments := some [("view").data, natToChars k.view_id, []],
    query := [], fragment := none }

/-- Modelled from the spec: `keys::JournalKey` is declared by this
repository but its definition is not under src (only its constructions in
journal.rs and others.rs are). The spec gives the structure
`JournalKey{journal_id}`. -/
structure JournalKey where
  journal_id : Nat
deriving DecidableEq

/-- Modelled from the spec: JournalKey parsing. The spec rule is that the
path must be `/journal/<id>/`, walked positionally exactly like the
`ViewKey` rule `/view/<id>/`, with the same error vocabulary. -/
def JournalKey.tryFrom (u : Url) : Except FromUrlError JournalKey :=
  match u.pathSegments with
  | none => .error .missingSegment
  | some segs =>
    match segs with
    | [] => .error .missingSegment
    | s1 :: rest =>
      if s1 = ("journal").data then
        match rest with
        | [] => .error .missingSegment
        | t :: _ =>
          match parseU64 t with
          | some v => .ok ⟨v⟩
          | none => .error .parseIntError
      else .error .missingSegment

/-- Modelled from the spec: JournalKey formatting, the URL grammar entry
`/journal/<u64>/` on the canonical host. -/
def JournalKey.toUrl (k : JournalKey) : Url :=
  { pathSegments := some [("journal").data, natToChars k.journal_id, []],
    query := [], fragment := none }

/-- Embeds `keys::FavKey`. -/
structure FavKey where
  view_id : Nat
  key : Str
deriving DecidableEq

/-- Embeds `TryFrom<&Url> for FavKey`: the mode segment must be `fav` or
`unfav`, the next segment is the numeric view id, and the first query pair
named `key` supplies the token. -/
def FavKey.tryFrom (u : Url) : Except FromUrlError FavKey :=
  match u.pathSegments with
  | none => .error .missingSegment
  | some segs =>
    match segs with
    | [] => .error .missingSegment
    | mode :: rest =>
      if mode = ("fav").data ∨ mode = ("unfav").data then
        match rest with
        | [] => .error .missingSegment
        | t :: _ =>
          match parseU64 t with
          | none => .error .parseIntError
          | some view_id =>
            match (u.query.filter (fun p => p.1 = ("key").data)).head? with
            | some p => .ok ⟨view_id, p.2⟩
            | none => .error .missingSegment
      else .error .missingSegment

/-- Embeds `keys::ReplyTo`. -/
inductive ReplyTo where
  | view (id : Nat)
  | journal (id : Nat)
  | viewComment (cid : Nat)
  | journalComment (cid : Nat)
deriving DecidableEq

/-- Embeds `ReplyTo::parse_fragment`. -/
def ReplyTo.parse_fragment (u : Url) : Option (Except FromUrlError Nat) :=
  match u.fragment with
  | none => none
  | some frag =>
    if (("cid:").data).isPrefixOf frag then
      match parseU64 (frag.drop 4) with
      | some i => some (.ok i)
      | none => some (.error .parseIntError)
    else some (.error .missingSegment)

/-- Embeds `TryFrom<&Url> for ReplyTo`. -/
def ReplyTo.tryFrom (u : Url) : Except FromUrlError ReplyTo :=
  match u.pathSegments with
  | none => .error .missingSegment
  | some segs =>
    match segs with
    | [] => .error .missingSegment
    | s1 :: rest =>
      if s1 = ("journal").data then
        match ReplyTo.parse_fragment u with
        | some (.error e) => .error e
        | some (.ok cid) => .ok (.journalComment cid)
        | none =>
          match rest with
          | [] => .error .missingSegment
          | t :: _ =>
            match parseU64 t with
            | some i => .ok (.journal i)
            | none => .error .parseIntError
      else if s1 = ("view").data then
        match ReplyTo.parse_fragment u with
        | some (.error e) => .error e
        | some (.ok cid) => .ok (.viewComment cid)
        | none =>
          match rest with
          | [] => .error .missingSegment
          | t :: _ =>
            match parseU64 t with
            | some i => .ok (.view i)
            | none => .error .parseIntError
      else if s1 = ("replyto").data then
        match rest with
        | [] => .error .missingSegment
        | v :: rest2 =>
          match rest2 with
          | [] => .error .missingSegment
          | t :: _ =>
            match parseU64 t with
            | none => .error .parseIntError
            | some cid =>
              if v = ("journal").data then .ok (.journalComment cid)
              else if v = ("submission").data then .ok (.viewComment cid)
              else .error .missingSegment
      else .error .missingSegment

/-- Embeds `keys::CommentReplyKey`. -/
structure CommentReplyKey where
  reply_to : ReplyTo
deriving DecidableEq

/-- Embeds `TryFrom<&Url> for CommentReplyKey`. -/
def CommentReplyKey.tryFrom (u : Url) : Except FromUrlError CommentReplyKey :=
  match ReplyTo.tryFrom u with
  | .ok r => .ok ⟨r⟩
  | .error e => .error e

/-- Embeds `CommentReplyKey::view`. -/
def CommentReplyKey.viewK (id : Nat) : CommentReplyKey := ⟨.view id⟩

/-- Embeds `CommentReplyKey::view_comment`. -/
def CommentReplyKey.view_comment (cid : Nat) : CommentReplyKey := ⟨.viewComment cid⟩

/-! ## Document and element model

The CSS selector engine is an external capability ("parse a byte string
into a navigable, selector-queryable document tree").  An element carries
its tag name, attributes, the class tokens of its class attribute as the
selector engine sees them, its child nodes (used by the markup simplifier,
by text collection and by inner-HTML serialization), and the selector
oracle `sel`, which returns the elements the engine would yield for a
selector run over this subtree, in document order.  A document carries the
same oracle for whole-document queries. -/

mutual
inductive NodeList where
  | nil : NodeList
  | text (s : Str) (t : NodeList) : NodeList
  | comm (s : Str) (t : NodeList) : NodeList
  | elem (e : Elem) (t : NodeList) : NodeList

inductive Elem where
  | mk (name : Str) (attrs : List (Str × Str)) (classes : List Str)
      (children : NodeList) (sel : Str → ElemList) : Elem

inductive ElemList where
  | nil : ElemList
  | cons (e : Elem) (t : ElemList) : ElemList
end

def Elem.name : Elem → Str
  | .mk n _ _ _ _ => n

def Elem.attrs : Elem → List (Str × Str)
  | .mk _ a _ _ _ => a

def Elem.classes : Elem → List Str
  | .mk _ _ c _ _ => c

def Elem.children : Elem → NodeList
  | .mk _ _ _ ch _ => ch

def Elem.sel : Elem → Str → ElemList
  | .mk _ _ _ _ s => s

def ElemList.head? : ElemList → Option Elem
  | .nil => none
  | .cons e _ => some e

def ElemList.toList : ElemList → List Elem
  | .nil => []
  | .cons e t => e :: t.toList

/-- A parsed document, exposing the selector engine. -/
structure Html where
  sel : Str → ElemList

/-- External collaborators from the url crate: relative-reference
resolution (`Url::join`, `none` embeds the `Err` case) and URL
serialization (`Url::to_string`). -/
structure UrlLib where
  join : Url → Str → Option Url
  toStr : Url → Str

/-! ## Error taxonomy and result type (src/resources.rs)

`PResult` is the outcome of an embedded Rust computation: a value, a
`ParseError`, or a panic (debug-mode arithmetic overflow, `unwrap` on a
missing value, an explicit `panic!` call, out-of-bounds slicing). -/

/-- Embeds `resources::ParseError`. -/
inductive ParseError where
  | missingElement (selector : Str)
  | missingAttribute (attrName : Str)
  | malformedUrl
  | incorrectUrl
  | invalidInteger
  | invalidDate
  | unknownRating (text : Str)
  | invalidDepth (style : Str)
  | json
  | nsfw
deriving DecidableEq

inductive PResult (α : Type) where
  | ok : α → PResult α
  | err : ParseError → PResult α
  | panic : Str → PResult α

instance : Monad PResult where
  pure := PResult.ok
  bind := fun r f =>
    match r with
    | .ok a => f a
    | .err e => .err e
    | .panic m => .panic m

/-- Lift a `Result`-returning helper into a panicking context. -/
def liftE : Except ParseError α → PResult α
  | .ok a => .ok a
  | .error e => .err e

/-- The Rust panic message of `Option::unwrap` on `None`. -/
def unwrapNoneMsg : Str := ("called Option::unwrap() on a None value").data

/-- The Rust panic message of debug-mode unsigned subtraction overflow. -/
def overflowMsg : Str := ("attempt to subtract with overflow").data

/-- The Rust panic message of an out-of-bounds string slice. -/
def sliceMsg : Str := ("byte index out of bounds").data

/-- Embeds `.unwrap()` on an `Option`. -/
def unwrapOpt : Option α → PResult α
  | some a => .ok a
  | none => .panic unwrapNoneMsg

/-- Embeds `.context(err)?` on an `Option`. -/
def ctxOpt : Option α → ParseError → Except ParseError α
  | some a, _ => .ok a
  | none, e => .error e

/-- Embeds Rust `a - b` on unsigned integers with debug overflow checks. -/
def rustSub (a b : Nat) : PResult Nat :=
  if b ≤ a then .ok (a - b) else .panic overflowMsg

/-- Embeds the byte slice `&s[i..]`, which panics when `i` is past the end. -/
def sliceFrom (s : Str) (i : Nat) : PResult Str :=
  if i ≤ s.length then .ok (s.drop i) else .panic sliceMsg

/-- Embeds the byte slice `&s[a..b]`, which panics when the range is invalid. -/
def sliceRange (s : Str) (a b : Nat) : PResult Str :=
  if a ≤ b ∧ b ≤ s.length then .ok ((s.drop a).take (b - a)) else .panic sliceMsg

/-- Embeds `str::parse::<u64>` under the `ParseError` taxonomy, where
`snafu(context(false))` turns the integer error into `InvalidInteger`. -/
def parseNat64E (s : Str) : Except ParseError Nat :=
  match parseU64 s with
  | some n => .ok n
  | none => .error .invalidInteger

/-! ## Primitive extractors (src/resources.rs) -/

/-- First attribute of the given name, as the scraper crate reports it. -/
def lookupA : List (Str × Str) → Str → Option Str
  | [], _ => none
  | (k, v) :: t, a => if k = a then some v else lookupA t a

/-- Embeds `resources::attr`. -/
def attrE (e : Elem) (a : Str) : Except ParseError Str :=
  match lookupA e.attrs a with
  | some v => .ok v
  | none => .error (.missingAttribute a)

/-- Embeds `resources::select_first`. -/
def select_first (d : Html) (css : Str) : Except ParseError Elem :=
  match (d.sel css).head? with
  | some e => .ok e
  | none => .error (.missingElement css)

/-- Embeds `resources::select_first_elem`. -/
def select_first_elem (e : Elem) (css : Str) : Except ParseError Elem :=
  match (e.sel css).head? with
  | some x => .ok x
  | none => .error (.missingElement css)

mutual
/-- Text nodes of a node list in document order, for `ElementRef::text`. -/
def NodeList.textsAcc : NodeList → List Str
  | .nil => []
  | .text s t => s :: t.textsAcc
  | .comm _ t => t.textsAcc
  | .elem e t => e.textsOf ++ t.textsAcc

/-- Text nodes of the subtree of an element in document order. -/
def Elem.textsOf : Elem → List Str
  | .mk _ _ _ ch _ => ch.textsAcc
end

/-- Embeds `resources::text`: descendant text nodes, each trimmed, joined
with single spaces. -/
def textOf (e : Elem) : Str :=
  List.intercalate ((" ").data) (e.textsOf.map trimStr)

/-- Embeds `resources::number`. -/
def numberOf (e : Elem) : Except ParseError Nat :=
  parseNat64E (textOf e)

/-- Embeds `resources::datetime`, abstracting the chrono format parser
(an out-of-scope primitive library) as `parseDT`. -/
def datetimeOf (parseDT : Str → Option Nat) (e : Elem) : Except ParseError Nat :=
  let txt := match lookupA e.attrs (("title").data) with
    | some t => t
    | none => textOf e
  match parseDT txt with
  | some p => .ok p
  | none =>
    match parseDT (textOf e) with
    | some p => .ok p
    | none => .error .invalidDate

/-- Embeds `Url::join` failure mapped through `?` to `MalformedUrl`. -/
def joinUrl (L : UrlLib) (u : Url) (s : Str) : Except ParseError Url :=
  match L.join u s with
  | some r => .ok r
  | none => .error .malformedUrl

/-- Embeds `resources::Rating` and its `FromStr`. -/
inductive Rating where
  | general
  | mature
  | adult
deriving DecidableEq

def Rating.fromStr (text : Str) : Except ParseError Rating :=
  if text = ("Adult").data then .ok .adult
  else if text = ("Mature").data then .ok .mature
  else if text = ("General").data then .ok .general
  else .error (.unknownRating text)

/-- Embeds `resources::SubmissionKind`. -/
inductive SubmissionKind where
  | image
  | flash
  | text
  | audio
deriving DecidableEq

/-- Embeds `resources::MiniUser`. -/
structure MiniUser where
  avatar : Url
  name : Str
  slug : Str
deriving DecidableEq

/-! ## Markup simplifier (src/html.rs) -/

/-- Embeds `htmlescape::encode_minimal` on one character. -/
def encodeMinimalChar (c : Char) : Str :=
  if c = '&' then ("&amp;").data
  else if c = '<' then ("&lt;").data
  else if c = '>' then ("&gt;").data
  else if c = '"' then ("&quot;").data
  else if c = Char.ofNat 39 then ("&#x27;").data
  else [c]

/-- Embeds `htmlescape::encode_minimal`. -/
def encodeMinimal (s : Str) : Str :=
  s.foldr (fun c acc => encodeMinimalChar c ++ acc) []

/-- ASCII lower-casing of one character. -/
def toAsciiLower (c : Char) : Char :=
  if 'A' ≤ c ∧ c ≤ 'Z' then Char.ofNat (c.toNat + 32) else c

/-- ASCII-case-insensitive string equality, used by `has_class` with
`CaseSensitivity::AsciiCaseInsensitive` and by `eq_ignore_ascii_case`. -/
def eqIC (a b : Str) : Bool :=
  a.map toAsciiLower = b.map toAsciiLower

/-- Embeds `Element::has_class`. -/
def hasClass (classes : List Str) (cls : Str) : Bool :=
  classes.any (fun c => eqIC c cls)

/-- Embeds the `BBCODE_CLASSES` table. -/
def BBCODE_CLASSES : List (Str × Str × Option Str) :=
  [((("bbcode_hr").data), (("<hr>").data), none),
   ((("bbcode_b").data), (("<strong>").data), some (("</strong>").data)),
   ((("bbcode_i").data), (("<em>").data), some (("</em>").data)),
   ((("bbcode_u").data), (("<u>").data), some (("</u>").data)),
   ((("bbcode_s").data), (("<s>").data), some (("</s>").data)),
   ((("bbcode_left").data), (("<div align=\"left\">").data), some (("</div>").data)),
   ((("bbcode_center").data), (("<div align=\"center\">").data), some (("</div>").data)),
   ((("bbcode_right").data), (("<div align=\"right\">").data), some (("</div>").data)),
   ((("bbcode_quote").data), (("<blockquote class=\"quote\">").data),
     some (("</blockquote>").data)),
   ((("bbcode_quote_name").data), (("<strong class=\"quote-name\">").data),
     some (("</strong>").data))]

/-- The first table entry whose class the element has (table order, first
match wins, as in the `for` loops of `bbcode_open` and `bbcode_close`). -/
def classEntry (classes : List Str) : Option (Str × Option Str) :=
  (BBCODE_CLASSES.find? (fun ent => hasClass classes ent.1)).map
    (fun ent => (ent.2.1, ent.2.2))

/-- Embeds `bbcode_span_color`. -/
def bbcode_span_color (attrs : List (Str × Str)) : Option Str :=
  match lookupA attrs (("style").data) with
  | none => none
  | some style =>
    if (("color: ").data).isPrefixOf style then
      if style.getLast? = some ';' then
        some ((style.drop 7).take (style.length - 1 - 7))
      else none
    else none

/-- Embeds `bbcode_open`. -/
def bbcodeOpen (name : Str) (attrs : List (Str × Str)) (classes : List Str) : Str :=
  match classEntry classes with
  | some (op, _) => op
  | none =>
    if eqIC name (("div").data) || eqIC name (("span").data) then
      match bbcode_span_color attrs with
      | some color =>
          ("<font color=\"").data ++ encodeMinimal color ++ ("\">").data
      | none => []
    else []

/-- Embeds `bbcode_close`. -/
def bbcodeClose (name : Str) (attrs : List (Str × Str)) (classes : List Str) : Str :=
  match classEntry classes with
  | some (_, some cl) => cl
  | some (_, none) => []
  | none =>
    if (eqIC name (("div").data) || eqIC name (("span").data)) &&
        (bbcode_span_color attrs).isSome then
      ("</font>").data
    else []

/-- Embeds `bbcode_open_a`. -/
def bbcodeOpenA (L : UrlLib) (root : Url) (attrs : List (Str × Str)) : Str :=
  match (lookupA attrs (("href").data)).bind (fun h => L.join root h) with
  | some u2 => ("<a href=\"").data ++ encodeMinimal (L.toStr u2) ++ ("\">").data
  | none => ("<a>").data

/-- Embeds `bbcode_img`. -/
def bbcodeImg (L : UrlLib) (root : Url) (attrs : List (Str × Str)) : Str :=
  match (lookupA attrs (("src").data)).bind (fun h => L.join root h) with
  | some u2 =>
      ("<img width=\"50\" height=\"50\" align=\"middle\" src=\"").data ++
        encodeMinimal (L.toStr u2) ++ ("\">").data
  | none => []

/-- The tag names dispatched to the bbcode table in `simplify_open_element`
and `simplify_close`. -/
def isFmtName (n : Str) : Bool :=
  n = ("strong").data || n = ("b").data || n = ("em").data || n = ("i").data ||
  n = ("u").data || n = ("s").data || n = ("code").data || n = ("hr").data ||
  n = ("span").data || n = ("div").data

/-- Embeds `simplify_open_element`. -/
def simpOpenElem (L : UrlLib) (root : Url) (name : Str)
    (attrs : List (Str × Str)) (classes : List Str) : Str :=
  if isFmtName name then bbcodeOpen name attrs classes
  else if name = ("br").data then ("<br>").data
  else if name = ("a").data then bbcodeOpenA L root attrs
  else if name = ("img").data then bbcodeImg L root attrs
  else []

/-- Embeds the element dispatch of `simplify_close`. -/
def simpCloseElem (name : Str) (attrs : List (Str × Str)) (classes : List Str) : Str :=
  if isFmtName name then bbcodeClose name attrs classes
  else if name = ("a").data then ("</a>").data
  else []

mutual
/-- Open/close paired traversal of a node list, in document order. -/
def simpNodes (L : UrlLib) (root : Url) : NodeList → Str
  | .nil => []
  | .text s t => encodeMinimal s ++ simpNodes L root t
  | .comm _ t => simpNodes L root t
  | .elem e t => simpElem L root e ++ simpNodes L root t

/-- Open event, children, then the matching close event of one element. -/
def simpElem (L : UrlLib) (root : Url) : Elem → Str
  | .mk name attrs classes ch _ =>
      simpOpenElem L root name attrs classes ++ simpNodes L root ch ++
        simpCloseElem name attrs classes
end

/-- Embeds `html::simplify`.  The edge traversal skips only the first edge
(the open event of the root), so the children are fully traversed and the
close event of the root element itself is still emitted. -/
def simplify (L : UrlLib) (root : Url) (e : Elem) : Str :=
  simpNodes L root e.children ++ simpCloseElem e.name e.attrs e.classes

/-! ## Inner-HTML serialization (scraper `ElementRef::inner_html`) -/

def escTextChar (c : Char) : Str :=
  if c = '&' then ("&amp;").data
  else if c = '<' then ("&lt;").data
  else if c = '>' then ("&gt;").data
  else [c]

def escText (s : Str) : Str :=
  s.foldr (fun c acc => escTextChar c ++ acc) []

def escAttrChar (c : Char) : Str :=
  if c = '&' then ("&amp;").data
  else if c = '"' then ("&quot;").data
  else [c]

def escAttr (s : Str) : Str :=
  s.foldr (fun c acc => escAttrChar c ++ acc) []

def VOID_ELEMENTS : List Str :=
  [(("area").data), (("base").data), (("br").data), (("col").data),
   (("embed").data), (("hr").data), (("img").data), (("input").data),
   (("link").data), (("meta").data), (("param").data), (("source").data),
   (("track").data), (("wbr").data)]

def serAttrs (attrs : List (Str × Str)) : Str :=
  attrs.foldr (fun kv acc => ' ' :: kv.1 ++ ("=\"").data ++ escAttr kv.2 ++ ('"' :: acc)) []

mutual
def serNodes : NodeList → Str
  | .nil => []
  | .text s t => escText s ++ serNodes t
  | .comm s t => ("<!--").data ++ s ++ ("-->").data ++ serNodes t
  | .elem e t => serElem e ++ serNodes t

def serElem : Elem → Str
  | .mk name attrs _ ch _ =>
      '<' :: (name ++ serAttrs attrs ++ ('>' :: [])) ++
        (if VOID_ELEMENTS.contains name then []
         else serNodes ch ++ ("</").data ++ name ++ ('>' :: []))
end

/-- Embeds `ElementRef::inner_html`: serialization of the children. -/
def innerHtml (e : Elem) : Str := serNodes e.children

/-- Collect a traversal of per-element results, stopping at the first
error or panic, as `.collect::<Result<Vec<_>, _>>()` does. -/
def mapCollectP (f : α → PResult β) : List α → PResult (List β)
  | [] => pure []
  | x :: xs => do
    let b ← f x
    let bs ← mapCollectP f xs
    pure (b :: bs)

/-! ## Comment-thread decoder (src/resources/comment.rs) -/

/-- Embeds `comment::CommentRoot`. -/
inductive CommentRoot where
  | view (id : Nat)
  | journal (id : Nat)
deriving DecidableEq

/-- Embeds `comment::Comment`. -/
structure Comment where
  parent_id : Option Nat
  commenter : MiniUser
  posted : Nat
  text : Str
deriving DecidableEq

/-- Embeds `comment::CommentContainer`. -/
structure CommentContainer where
  root : CommentRoot
  comment_id : Nat
  depth : Nat
  comment : Option Comment
deriving DecidableEq

/-- Embeds `CommentContainer::extract_width`: the wrapper style must start
with `width:`, end with `%`, have total length 8 to 10, and its middle
must parse as a `u8`. -/
def CommentContainer.extract_width (e : Elem) : Except ParseError Nat := do
  let style ← attrE e (("style").data)
  if (("width:").data).isPrefixOf style then
    if style.getLast? = some '%' then
      if 8 ≤ style.length then
        if style.length ≤ 10 then
          match parseU8 ((style.drop 6).take (style.length - 1 - 6)) with
          | some w => .ok w
          | none => .error .invalidInteger
        else .error (.invalidDepth style)
      else .error (.invalidDepth style)
    else .error (.invalidDepth style)
  else .error (.invalidDepth style)

/-- The depth formula `(100 - width) / 3` of `CommentContainer::extract`,
meaningful when the subtraction does not overflow. -/
def depthOfWidth (w : Nat) : Nat := (100 - w) / 3

/-- Embeds the optional-parent extraction of `CommentContainer::extract`. -/
def extractParent (e : Elem) : PResult (Option Nat) :=
  match select_first_elem e (("a.comment-parent").data) with
  | .ok p => do
      let href ← liftE (attrE p (("href").data))
      if (("#cid:").data).isPrefixOf href then
        match parseU64 (href.drop 5) with
        | some pid => pure (some pid)
        | none => PResult.err .invalidInteger
      else PResult.err (.missingAttribute (("href").data))
  | .error (.missingElement _) => pure none
  | .error er => PResult.err er

/-- Embeds the mandatory tail (timestamp, avatar, slug, name) of the
comment extractors, shared verbatim between comment.rs and view.rs. -/
def extractCommentTail (L : UrlLib) (parseDT : Str → Option Nat) (url : Url)
    (e : Elem) : PResult (Option Nat × Nat × MiniUser) := do
  let parent_id ← extractParent e
  let posted_elem ← liftE (select_first_elem e ((".comment-date .popup_date").data))
  let posted ← liftE (datetimeOf parseDT posted_elem)
  let avatar_elem ← liftE (select_first_elem e (("img.comment_useravatar").data))
  let srcv ← liftE (attrE avatar_elem (("src").data))
  let avatar ← liftE (joinUrl L url srcv)
  let slug ← liftE (attrE avatar_elem (("alt").data))
  let name_elem ← liftE (select_first_elem e ((".comment_username h3").data))
  let namev := textOf name_elem
  pure (parent_id, posted, ⟨avatar, namev, slug⟩)

/-- Embeds `CommentContainer::extract`.  The depth computation
`(100 - width) / 3` runs on a `u8` and panics in debug builds when the
width exceeds 100; the comment body, when present, is the markup
simplifier output on the body element. -/
def CommentContainer.extract (L : UrlLib) (parseDT : Str → Option Nat)
    (url : Url) (root : CommentRoot) (e : Elem) : PResult CommentContainer := do
  let width ← liftE (CommentContainer.extract_width e)
  let diff ← rustSub 100 width
  let depth := diff / 3
  let id_elem ← liftE (select_first_elem e (("a.comment_anchor[id^=\x27cid:\x27]").data))
  let id_attr ← liftE (attrE id_elem (("id").data))
  let id_txt ← sliceFrom id_attr 4
  let comment_id ← liftE (parseNat64E id_txt)
  match select_first_elem e ((".comment_text").data) with
  | .error (.missingElement _) =>
      pure ⟨root, comment_id, depth, none⟩
  | .error er => PResult.err er
  | .ok t => do
      let text := simplify L url t
      let tail ← extractCommentTail L parseDT url e
      pure ⟨root, comment_id, depth, some ⟨tail.1, tail.2.2, tail.2.1, text⟩⟩

/-! ## Submission-view assembler (src/resources/view.rs) -/

/-- Embeds `resources::Submission`. -/
structure Submission where
  view_id : Nat
  created : Nat
  cdn : Url
  rating : Rating
  title : Str
  description : Str
  artist : MiniUser
  kind : SubmissionKind
deriving DecidableEq

/-- Embeds `Submission::parse_url`: the CDN root is `url.join("./")`
unwrapped (a panic on failure), and the creation epoch is parsed from the
last path segment between the first `-` and the following `.`. -/
def Submission.parse_url (L : UrlLib) (u : Url) : PResult (Url × Nat) := do
  let root ← unwrapOpt (L.join u (("./").data))
  let segs ← liftE (ctxOpt u.pathSegments .incorrectUrl)
  let path ← liftE (ctxOpt segs.getLast? .incorrectUrl)
  let after_sz ← liftE (ctxOpt (splitn2 '-' path).getLast? .incorrectUrl)
  let before_ext ← liftE (ctxOpt (splitn2 '.' after_sz).head? .incorrectUrl)
  let created ← liftE (parseNat64E before_ext)
  pure (root, created)

/-- Embeds view.rs `Comment` (it stores the same fields as comment.rs). -/
structure VComment where
  parent_id : Option Nat
  commenter : MiniUser
  posted : Nat
  text : Str
deriving DecidableEq

/-- Embeds view.rs `CommentContainer` (keyed by the view id). -/
structure VCommentContainer where
  view_id : Nat
  comment_id : Nat
  depth : Nat
  comment : Option VComment
deriving DecidableEq

/-- Embeds `View::extract_width`, a verbatim duplicate of
`CommentContainer::extract_width`. -/
def View.extract_width (e : Elem) : Except ParseError Nat :=
  CommentContainer.extract_width e

/-- Embeds `View::extract_comment`.  Unlike the shared comment decoder,
the body text stored here is `inner_html()` of the body element, trimmed,
and the markup simplifier is not invoked. -/
def View.extract_comment (L : UrlLib) (parseDT : Str → Option Nat)
    (url : Url) (view_id : Nat) (e : Elem) : PResult VCommentContainer := do
  let width ← liftE (View.extract_width e)
  let diff ← rustSub 100 width
  let depth := diff / 3
  let id_elem ← liftE (select_first_elem e (("a.comment_anchor[id^=\x27cid:\x27]").data))
  let id_attr ← liftE (attrE id_elem (("id").data))
  let id_txt ← sliceFrom id_attr 4
  let comment_id ← liftE (parseNat64E id_txt)
  match select_first_elem e ((".comment_text").data) with
  | .error (.missingElement _) =>
      pure ⟨view_id, comment_id, depth, none⟩
  | .error er => PResult.err er
  | .ok t => do
      let text := trimStr (innerHtml t)
      let tail ← extractCommentTail L parseDT url e
      pure ⟨view_id, comment_id, depth, some ⟨tail.1, tail.2.2, tail.2.1, text⟩⟩

/-- Embeds `View::extract_urls`. -/
def View.extract_urls (L : UrlLib) (url : Url) (subimg : Elem) :
    Except ParseError (Url × Url) := do
  let fullview_txt ← attrE subimg (("data-fullview-src").data)
  let fullview ← joinUrl L url fullview_txt
  let preview_txt ← attrE subimg (("data-preview-src").data)
  let preview ← joinUrl L url preview_txt
  pure (preview, fullview)

/-- Embeds `View::extract_urls_flash`, whose `unwrap` calls panic when the
request URL or the embed URL has too few path segments. -/
def View.extract_urls_flash (L : UrlLib) (url : Url) (doc : Html) :
    PResult (Url × Url) := do
  let segs ← unwrapOpt url.pathSegments
  let id0 ← unwrapOpt (segs.get? 1)
  let embed ← liftE (select_first doc (("object#flash_embed").data))
  let fullview_txt ← liftE (attrE embed (("data").data))
  let fullview ← liftE (joinUrl L url fullview_txt)
  let fsegs ← unwrapOpt fullview.pathSegments
  let id1 ← unwrapOpt (fsegs.get? 2)
  let preview_txt := ("//t.facdn.net/").data ++ id0 ++ ("@200-").data ++ id1 ++ (".jpg").data
  let preview ← liftE (joinUrl L url preview_txt)
  pure (preview, fullview)

/-- Embeds `resources::view::View`. -/
structure View where
  fav_key : Option FavKey
  faved : Option Bool
  submission : Submission
  fullview : Url
  download : Url
  category : Str
  type_ : Str
  tags : List Str
  n_views : Nat
  n_comments : Nat
  n_favorites : Nat
  posted : Nat
  comments : List VCommentContainer
deriving DecidableEq

/-- Everything `View::from_html` computes before the favorite-state match
at the end of the function, in source order. -/
structure ViewPre where
  submission : Submission
  fullview : Url
  download : Url
  category : Str
  type_ : Str
  tags : List Str
  n_views : Nat
  n_comments : Nat
  n_favorites : Nat
  posted : Nat
  comments : List VCommentContainer
deriving DecidableEq

/-- The `Ok(Self { .. })` record construction ending `View::from_html`. -/
def assembleView (pre : ViewPre) (faved : Option Bool) (fav_key : Option FavKey) : View :=
  { fav_key := fav_key, faved := faved, submission := pre.submission,
    fullview := pre.fullview, download := pre.download,
    category := pre.category, type_ := pre.type_, tags := pre.tags,
    n_views := pre.n_views, n_comments := pre.n_comments,
    n_favorites := pre.n_favorites, posted := pre.posted,
    comments := pre.comments }

/-- The part of `View::from_html` up to and including comment extraction,
in source order: image-or-gated-or-flash dispatch, preview decomposition,
view id, kind, download, category, type, counts, rating, posted, title,
description, avatar, artist, tags, comments. -/
def View.viewPre (L : UrlLib) (parseDT : Str → Option Nat)
    (url : Url) (doc : Html) : PResult ViewPre := do
  let pf ← (match select_first doc (("img#submissionImg").data) with
    | .ok img => liftE (View.extract_urls L url img)
    | .error (.missingElement _) =>
        match select_first doc (("#pageid-matureimage-error").data) with
        | .ok _ => PResult.err ParseError.nsfw
        | .error _ => View.extract_urls_flash L url doc
    | .error e => PResult.err e)
  let (preview, fullview) := pf
  let rc ← Submission.parse_url L preview
  let (cdn, created) := rc
  let segs ← liftE (ctxOpt url.pathSegments .incorrectUrl)
  let view_id ← (match segs with
    | s1 :: rest =>
      if s1 = ("view").data then
        match rest with
        | t :: _ => liftE (parseNat64E t)
        | [] => PResult.err ParseError.incorrectUrl
      else PResult.err ParseError.incorrectUrl
    | [] => PResult.err ParseError.incorrectUrl)
  let kind_elem ← liftE (select_first doc (("#submission_page").data))
  let kind_class ← liftE (attrE kind_elem (("class").data))
  let kind ← (if containsSeq (("page-content-type-flash").data) kind_class then
      pure SubmissionKind.flash
    else if containsSeq (("page-content-type-image").data) kind_class then
      pure SubmissionKind.image
    else if containsSeq (("page-content-type-text").data) kind_class then
      pure SubmissionKind.text
    else if containsSeq (("page-content-type-music").data) kind_class then
      pure SubmissionKind.audio
    else PResult.err (ParseError.missingAttribute (("class").data)))
  let download_elem ← liftE (select_first doc ((".download a").data))
  let download_txt ← liftE (attrE download_elem (("href").data))
  let download ← liftE (joinUrl L url download_txt)
  let category_elem ← liftE (select_first doc ((".submission-sidebar span.category-name").data))
  let category := textOf category_elem
  let type_elem ← liftE (select_first doc ((".submission-sidebar span.type-name").data))
  let type_ := textOf type_elem
  let views_elem ← liftE (select_first doc ((".stats-container .views .font-large").data))
  let n_views ← liftE (numberOf views_elem)
  let comments_elem ← liftE (select_first doc ((".stats-container .comments .font-large").data))
  let n_comments ← liftE (numberOf comments_elem)
  let favorites_elem ← liftE (select_first doc ((".stats-container .favorites .font-large").data))
  let n_favorites ← liftE (numberOf favorites_elem)
  let rating_elem ← liftE (select_first doc ((".stats-container .rating-box").data))
  let rating ← liftE (Rating.fromStr (textOf rating_elem))
  let posted_elem ← liftE (select_first doc ((".submission-id-container .popup_date").data))
  let posted ← liftE (datetimeOf parseDT posted_elem)
  let title_elem ← liftE (select_first doc ((".submission-id-container .submission-title h2 p").data))
  let title := textOf title_elem
  let description_elem ← liftE (select_first doc ((".submission-description").data))
  let description := simplify L url description_elem
  let avatar_elem ← liftE (select_first doc ((".submission-id-avatar > a > img").data))
  let avatar_txt ← liftE (attrE avatar_elem (("src").data))
  let avatar ← liftE (joinUrl L url avatar_txt)
  let artist_elem ← liftE (select_first doc
    ((".submission-id-sub-container > a[href^=\x27/user/\x27]").data))
  let user_href ← liftE (attrE artist_elem (("href").data))
  let user_slug ← sliceRange user_href 6 (user_href.length - 1)
  let user_name := textOf artist_elem
  let tags := (doc.sel ((".submission-sidebar .tags").data)).toList.map textOf
  let comments ← mapCollectP (View.extract_comment L parseDT url view_id)
    (doc.sel (("#comments-submission .comment_container").data)).toList
  let sub : Submission :=
    { view_id := view_id, created := created, cdn := cdn, rating := rating,
      title := title, description := description,
      artist := ⟨avatar, user_name, user_slug⟩, kind := kind }
  pure { submission := sub, fullview := fullview, download := download,
         category := category, type_ := type_, tags := tags,
         n_views := n_views, n_comments := n_comments,
         n_favorites := n_favorites, posted := posted, comments := comments }

/-- The favorite-state match ending `View::from_html`: mutually exclusive
fav/unfav action links, a panic when both are present, `None` state when
neither is, and the fav key parsed from the link URL otherwise (with
`FromUrlError` remapped into the `ParseError` taxonomy). -/
def View.favStage (L : UrlLib) (url : Url) (doc : Html) :
    PResult (Option Bool × Option FavKey) := do
  let fh ← (match select_first doc ((".favorite-nav a[href^=\x27/fav/\x27]").data),
      select_first doc ((".favorite-nav a[href^=\x27/unfav/\x27]").data) with
    | .ok e, .error _ => do
        let h ← liftE (attrE e (("href").data))
        pure ((some false : Option Bool), (some h : Option Str))
    | .error _, .ok e => do
        let h ← liftE (attrE e (("href").data))
        pure ((some true : Option Bool), (some h : Option Str))
    | .error _, .error _ => pure (none, none)
    | .ok _, .ok _ => PResult.panic (("too many fav links!").data))
  let (faved, fav_key_href) := fh
  match fav_key_href with
  | some href => do
      let u2 ← liftE (joinUrl L url href)
      match FavKey.tryFrom u2 with
      | .ok k => pure (faved, some k)
      | .error .missingSegment => PResult.err ParseError.incorrectUrl
      | .error .parseIntError => PResult.err ParseError.invalidInteger
  | none => pure (faved, none)

/-- Embeds `FromHtml for View`: the pre-favorite pipeline, then the
favorite stage, then the record construction. -/
def View.from_html (L : UrlLib) (parseDT : Str → Option Nat)
    (url : Url) (doc : Html) : PResult View := do
  let pre ← View.viewPre L parseDT url doc
  let fs ← View.favStage L url doc
  pure (assembleView pre fs.1 fs.2)

/-! ## Journal assembler (src/resources/journal.rs) -/

/-- Embeds `resources::journal::Journal`. -/
structure Journal where
  journal_id : Nat
  title : Str
  author : MiniUser
  header : Option Str
  footer : Option Str
  content : Str
  posted : Nat
  n_comments : Nat
  comments : List CommentContainer
deriving DecidableEq

/-- Embeds the accessor `Journal::header`, whose body is
`self.header.as_deref()`. -/
def Journal.headerText (j : Journal) : Option Str := j.header

/-- Embeds the accessor `Journal::footer`, whose body in the source is
also `self.header.as_deref()`. -/
def Journal.footerText (j : Journal) : Option Str := j.header

/-- Embeds `FromHtml for Journal`. -/
def Journal.from_html (L : UrlLib) (parseDT : Str → Option Nat)
    (url : Url) (doc : Html) : PResult Journal := do
  let segs ← liftE (ctxOpt url.pathSegments .incorrectUrl)
  let journal_id ← (match segs with
    | s1 :: rest =>
      if s1 = ("journal").data then
        match rest with
        | t :: _ => liftE (parseNat64E t)
        | [] => PResult.err ParseError.incorrectUrl
      else PResult.err ParseError.incorrectUrl
    | [] => PResult.err ParseError.incorrectUrl)
  let j ← liftE (select_first doc ((".journal-item").data))
  let header ← (match select_first_elem j ((".journal-header").data) with
    | .ok h => pure (some (simplify L url h))
    | .error (.missingElement _) => pure none
    | .error e => PResult.err e)
  let footer ← (match select_first_elem j ((".journal-footer").data) with
    | .ok f => pure (some (simplify L url f))
    | .error (.missingElement _) => pure none
    | .error e => PResult.err e)
  let content_elem ← liftE (select_first_elem j ((".journal-content").data))
  let content := simplify L url content_elem
  let title_elem ← liftE (select_first doc (("h2.journal-title").data))
  let title := textOf title_elem
  let posted_elem ← liftE (select_first doc (("h2.journal-title + div .popup_date").data))
  let posted ← liftE (datetimeOf parseDT posted_elem)
  let username_elem ← liftE (select_first doc (("#user-profile .username h2").data))
  let username_txt := trimStr (textOf username_elem)
  let username ← (if username_txt.head? = some '~' then pure (username_txt.drop 1)
    else PResult.err (ParseError.missingElement (("#user-profile .username h2").data)))
  let slug_elem ← liftE (select_first doc
    (("#user-profile .user-nav a[href^=\x27/user/\x27]").data))
  let shref ← liftE (attrE slug_elem (("href").data))
  let slug_attr ← sliceFrom shref 6
  let slug := (match slug_attr.getLast? with
    | some '/' => slug_attr.dropLast
    | _ => slug_attr)
  let avatar_elem ← liftE (select_first doc (("#user-profile img.user-nav-avatar").data))
  let avatar_txt ← liftE (attrE avatar_elem (("src").data))
  let avatar ← liftE (joinUrl L url avatar_txt)
  let n_elem ← liftE (select_first doc ((".journal-body-theme + div.section-footer span").data))
  let n_comments ← liftE (numberOf n_elem)
  let comments ← mapCollectP
    (CommentContainer.extract L parseDT url (CommentRoot.journal journal_id))
    (doc.sel (("#comments-journal .comment_container").data)).toList
  pure { journal_id := journal_id, title := title,
         author := ⟨avatar, username, slug⟩, header := header, footer := footer,
         content := content, posted := posted, n_comments := n_comments,
         comments := comments }

/-! ## Submissions-listing assembler (src/resources/msg/submissions.rs) -/

/-- Embeds `submissions::SubInfo`, the per-item record of the embedded
script JSON. -/
structure SubInfo where
  title : Str
  description : Str
  username : Str
  lower : Str
  avatar_mtime : Str
deriving DecidableEq

/-- Embeds the `Submission` record constructed by submissions.rs. -/
structure MsgSubmission where
  view_id : Nat
  rating : Rating
  preview : Url
  title : Str
  description : Str
  artist : MiniUser
deriving DecidableEq

/-- Embeds `msg::submissions::Submissions`. -/
structure Submissions where
  items : List MsgSubmission
  next : Option SubmissionsKey
  prev : Option SubmissionsKey
deriving DecidableEq

/-- Embeds `Submissions::extract_nav`. -/
def Submissions.extract_nav (L : UrlLib) (url : Url) (doc : Html) (css : Str) :
    Except ParseError SubmissionsKey := do
  let elem ← select_first doc css
  let href ← attrE elem (("href").data)
  let u2 ← joinUrl L url href
  match SubmissionsKey.tryFrom u2 with
  | .ok k => pure k
  | .error _ => .error .incorrectUrl

/-- Remove the entry of a key from the id-keyed metadata map, embedding
`HashMap::remove` (the value and the map without it). -/
def removeA : List (Nat × SubInfo) → Nat → Option (SubInfo × List (Nat × SubInfo))
  | [], _ => none
  | (k, v) :: t, key =>
    if k = key then some (v, t)
    else
      match removeA t key with
      | some (v2, t2) => some (v2, (k, v) :: t2)
      | none => none

/-- Insert-or-replace into the id-keyed metadata map, embedding
`HashMap::insert`. -/
def insertA : List (Nat × SubInfo) → Nat → SubInfo → List (Nat × SubInfo)
  | [], k, v => [(k, v)]
  | (k0, v0) :: t, k, v =>
    if k0 = k then (k, v) :: t else (k0, v0) :: insertA t k v

/-- Embeds the loop turning the string-keyed serde map into the u64-keyed
map (`sid_txt.parse()?` then insert). -/
def buildMap : List (Str × SubInfo) → List (Nat × SubInfo) →
    Except ParseError (List (Nat × SubInfo))
  | [], m => .ok m
  | (sid_txt, info) :: t, m =>
    match parseU64 sid_txt with
    | some sid => buildMap t (insertA m sid info)
    | none => .error .invalidInteger

/-- The rating if-chain of the per-figure loop of
`Submissions::from_html`. -/
def figRating (cls : Str) : PResult Rating :=
  if containsSeq (("r-adult").data) cls then pure Rating.adult
  else if containsSeq (("r-mature").data) cls then pure Rating.mature
  else if containsSeq (("r-general").data) cls then pure Rating.general
  else PResult.err (ParseError.missingAttribute (("class").data))

/-- Embeds the per-figure loop of `Submissions::from_html`: rating from
the figure class, id from the `sid-` attribute, preview image, then
`descriptions.remove(&view_id).unwrap()` — a panic when the figure has no
matching JSON entry — and the avatar URL join, also unwrapped. -/
def Submissions.assembleItems (L : UrlLib) (url : Url) :
    List Elem → List (Nat × SubInfo) → PResult (List MsgSubmission)
  | [], _ => pure []
  | f :: fs, m => do
    let cls ← liftE (attrE f (("class").data))
    let rating ← figRating cls
    let id_attr ← liftE (attrE f (("id").data))
    if (("sid-").data).isPrefixOf id_attr then do
      let view_id ← liftE (parseNat64E (id_attr.drop 4))
      let preview_elem ← liftE (select_first_elem f (("img").data))
      let preview_attr ← liftE (attrE preview_elem (("src").data))
      let preview ← liftE (joinUrl L url preview_attr)
      let im ← unwrapOpt (removeA m view_id)
      let (sub_info, m2) := im
      let avatar ← unwrapOpt (L.join url ((("//a.facdn.net/").data) ++
        sub_info.avatar_mtime ++ ('/' :: []) ++ sub_info.lower ++ ((".gif").data)))
      let rest ← Submissions.assembleItems L url fs m2
      pure (⟨view_id, rating, preview, sub_info.title, sub_info.description,
        ⟨avatar, sub_info.username, sub_info.lower⟩⟩ :: rest)
    else PResult.err (ParseError.missingAttribute (("id").data))

/-- Embeds `FromHtml for Submissions`, abstracting the serde JSON decoder
(an out-of-scope collaborator) as `parseDescs`, which yields the key-value
sequence of the decoded object or fails. -/
def Submissions.from_html (L : UrlLib)
    (parseDescs : Str → Option (List (Str × SubInfo)))
    (url : Url) (doc : Html) : PResult Submissions := do
  let prev ← (match Submissions.extract_nav L url doc
      (("a.button.prev[href^=\x27/msg/submissions/\x27][href*=\x27~\x27]").data) with
    | .ok p => pure (some p)
    | .error (.missingElement _) => pure none
    | .error e => PResult.err e)
  let next ← (match Submissions.extract_nav L url doc
      (("a.button:not(.prev)[href^=\x27/msg/submissions/\x27][href*=\x27~\x27]").data) with
    | .ok n => pure (some n)
    | .error (.missingElement _) => pure none
    | .error e => PResult.err e)
  let script_txt ← (match ((doc.sel (("script").data)).toList.map textOf).find?
      (fun x => containsSeq (("var descriptions =").data) x) with
    | some s => pure s
    | none => PResult.err (ParseError.missingElement (("script").data)))
  let descriptions_txt := trimStr (beforeSeq ((";\n").data) script_txt)
  if (("var descriptions = \x7b").data).isPrefixOf descriptions_txt then
    if descriptions_txt.getLast? = some '\x7d' then do
      let descriptions_str ← (match parseDescs (descriptions_txt.drop 19) with
        | some l => pure l
        | none => PResult.err ParseError.json)
      let descriptions ← liftE (buildMap descriptions_str [])
      let items ← Submissions.assembleItems L url
        (doc.sel (("section[id^=\x27gallery-\x27] > figure").data)).toList descriptions
      pure { items := items, next := next, prev := prev }
    else PResult.err (ParseError.missingElement (("script").data))
  else PResult.err (ParseError.missingElement (("script").data))

/-! ## Observers and concrete fixtures used by the verification -/

/-- Empty selector oracle. -/
def noSel : Str → ElemList := fun _ => ElemList.nil

/-- A url library for concrete runs: any relative reference resolves to a
single-segment URL made of the reference text. -/
def L0 : UrlLib :=
  ⟨fun _ rel => some ⟨some [rel], [], none⟩, fun _ => []⟩

/-- A date parser for concrete runs that accepts any text as epoch 0. -/
def pd0 : Str → Option Nat := fun _ => some 0

/-- An element with only a style attribute, for depth-decoding runs. -/
def elemWithStyle (s : Str) : Elem :=
  .mk (("div").data) [((("style").data), s)] [] .nil noSel

/-- An element with no attributes. -/
def elemNoStyle : Elem := .mk (("div").data) [] [] .nil noSel

/-- The stored body text of a decoded view-page comment, when extraction
succeeded and the comment is not hidden. -/
def textOfV : PResult VCommentContainer → Option Str
  | .ok c =>
    match c.comment with
    | some cm => some cm.text
    | none => none
  | _ => none

/-- The stored body text of a decoded shared comment, when extraction
succeeded and the comment is not hidden. -/
def textOfC : PResult CommentContainer → Option Str
  | .ok c =>
    match c.comment with
    | some cm => some cm.text
    | none => none
  | _ => none

/-- The footer accessor output of a successful journal extraction. -/
def footerAccOf : PResult Journal → Option (Option Str)
  | .ok j => some (Journal.footerText j)
  | _ => none

/-- The stored footer field of a successful journal extraction. -/
def footerFieldOf : PResult Journal → Option (Option Str)
  | .ok j => some j.footer
  | _ => none

/-- A comment body holding one paragraph: `<p>t</p>`. -/
def pElemFix : Elem :=
  .mk (("p").data) [] [] (NodeList.text (("t").data) NodeList.nil) noSel

/-- A comment-body element whose inner HTML is `<p>t</p>` and whose
simplified markup is `t`. -/
def bodyFix : Elem :=
  .mk (("div").data) [] [] (NodeList.elem pElemFix NodeList.nil) noSel

/-- The comment anchor carrying the id `cid:7`. -/
def anchorFix : Elem :=
  .mk (("a").data) [((("id").data), (("cid:7").data))] [] .nil noSel

/-- A datestamp element; concrete runs parse it with `pd0`. -/
def dateFix : Elem := .mk (("span").data) [] [] .nil noSel

/-- The commenter avatar, with source and alt text. -/
def avatarFix : Elem :=
  .mk (("img").data)
    [((("src").data), (("a.gif").data)), ((("alt").data), (("slug").data))]
    [] .nil noSel

/-- The commenter display-name element. -/
def nameFix : Elem :=
  .mk (("h3").data) [] [] (NodeList.text (("N").data) NodeList.nil) noSel

/-- A complete comment element: depth style, anchor, body, datestamp,
avatar and name present, parent link absent. -/
def commentFix : Elem :=
  .mk (("div").data) [((("style").data), (("width:100%").data))] [] .nil
    (fun s =>
      if s = ("a.comment_anchor[id^=\x27cid:\x27]").data then .cons anchorFix .nil
      else if s = (".comment_text").data then .cons bodyFix .nil
      else if s = (".comment-date .popup_date").data then .cons dateFix .nil
      else if s = ("img.comment_useravatar").data then .cons avatarFix .nil
      else if s = (".comment_username h3").data then .cons nameFix .nil
      else .nil)

/-- A document whose submission image is absent and whose mature-block
marker is present. -/
def gatedDoc : Html :=
  ⟨fun s =>
    if s = ("#pageid-matureimage-error").data then .cons elemNoStyle .nil
    else .nil⟩

/-- The request URL `/view/7/`. -/
def viewUrl7 : Url := ⟨some [("view").data, ("7").data, []], [], none⟩

/-- A url library for the favorite-state run: the fav action link resolves
to the decomposed fav URL, anything else to a single-segment URL. -/
def L8 : UrlLib :=
  ⟨fun _ rel =>
    if rel = ("/fav/7/?key=abc").data then
      some ⟨some [("fav").data, ("7").data, []],
        [((("key").data), (("abc").data))], none⟩
    else some ⟨some [rel], [], none⟩,
   fun _ => []⟩

/-- The submission image of the favorite-state fixture. -/
def imgEl8 : Elem :=
  .mk (("img").data)
    [((("data-fullview-src").data), (("f.jpg").data)),
     ((("data-preview-src").data), (("p-7.jpg").data))]
    [] .nil noSel

/-- The kind marker of the favorite-state fixture. -/
def kindEl8 : Elem :=
  .mk (("div").data) [((("class").data), (("page-content-type-image").data))]
    [] .nil noSel

/-- A link with a plain href, for the download anchor. -/
def dlEl8 : Elem :=
  .mk (("a").data) [((("href").data), (("d").data))] [] .nil noSel

/-- A span holding the text `c`. -/
def catEl8 : Elem :=
  .mk (("span").data) [] [] (NodeList.text (("c").data) NodeList.nil) noSel

/-- A counter holding the text `1`. -/
def numEl8 : Elem :=
  .mk (("span").data) [] [] (NodeList.text (("1").data) NodeList.nil) noSel

/-- The rating box holding `General`. -/
def ratingEl8 : Elem :=
  .mk (("div").data) [] [] (NodeList.text (("General").data) NodeList.nil) noSel

/-- The title element holding `T`. -/
def titleEl8 : Elem :=
  .mk (("p").data) [] [] (NodeList.text (("T").data) NodeList.nil) noSel

/-- An empty description block. -/
def descEl8 : Elem := .mk (("div").data) [] [] .nil noSel

/-- The submitter avatar image. -/
def avEl8 : Elem :=
  .mk (("img").data) [((("src").data), (("a.gif").data))] [] .nil noSel

/-- The artist link `/user/x/` named `X`. -/
def artistEl8 : Elem :=
  .mk (("a").data) [((("href").data), (("/user/x/").data))] []
    (NodeList.text (("X").data) NodeList.nil) noSel

/-- The fav action link of the favorite-state fixture. -/
def favEl8 : Elem :=
  .mk (("a").data) [((("href").data), (("/fav/7/?key=abc").data))] [] .nil noSel

/-- A complete submission-view document with the fav link present and the
unfav link absent. -/
def viewDoc8 : Html :=
  ⟨fun s =>
    if s = ("img#submissionImg").data then .cons imgEl8 .nil
    else if s = ("#submission_page").data then .cons kindEl8 .nil
    else if s = (".download a").data then .cons dlEl8 .nil
    else if s = (".submission-sidebar span.category-name").data then .cons catEl8 .nil
    else if s = (".submission-sidebar span.type-name").data then .cons catEl8 .nil
    else if s = (".stats-container .views .font-large").data then .cons numEl8 .nil
    else if s = (".stats-container .comments .font-large").data then .cons numEl8 .nil
    else if s = (".stats-container .favorites .font-large").data then .cons numEl8 .nil
    else if s = (".stats-container .rating-box").data then .cons ratingEl8 .nil
    else if s = (".submission-id-container .popup_date").data then .cons dateFix .nil
    else if s = (".submission-id-container .submission-title h2 p").data then .cons titleEl8 .nil
    else if s = (".submission-description").data then .cons descEl8 .nil
    else if s = (".submission-id-avatar > a > img").data then .cons avEl8 .nil
    else if s = (".submission-id-sub-container > a[href^=\x27/user/\x27]").data then .cons artistEl8 .nil
    else if s = (".favorite-nav a[href^=\x27/fav/\x27]").data then .cons favEl8 .nil
    else .nil⟩

/-- A fallback `ViewPre`, for reading off a successful run. -/
def dummyUrl : Url := ⟨none, [], none⟩

def dummyMini : MiniUser := ⟨dummyUrl, [], []⟩

def dummySub : Submission :=
  ⟨0, 0, dummyUrl, .general, [], [], dummyMini, .image⟩

def dummyPre : ViewPre := ⟨dummySub, dummyUrl, dummyUrl, [], [], [], 0, 0, 0, 0, []⟩

/-- Read the value of a successful pre-favorite pipeline run. -/
def getOkPre (r : PResult ViewPre) (dflt : ViewPre) : ViewPre :=
  match r with
  | .ok p => p
  | _ => dflt

/-- The pre-favorite pipeline output on the favorite-state fixture. -/
def pre8 : ViewPre := getOkPre (View.viewPre L8 pd0 viewUrl7 viewDoc8) dummyPre

/-- A journal footer block holding `F`. -/
def footEl7 : Elem :=
  .mk (("div").data) [] [] (NodeList.text (("F").data) NodeList.nil) noSel

/-- A journal content block holding `C`. -/
def contEl7 : Elem :=
  .mk (("div").data) [] [] (NodeList.text (("C").data) NodeList.nil) noSel

/-- The journal item: header absent, footer present, content present. -/
def jItem7 : Elem :=
  .mk (("div").data) [] [] .nil
    (fun s =>
      if s = (".journal-footer").data then .cons footEl7 .nil
      else if s = (".journal-content").data then .cons contEl7 .nil
      else .nil)

/-- The journal author name element, `~name`. -/
def userEl7 : Elem :=
  .mk (("h2").data) [] [] (NodeList.text (("~name").data) NodeList.nil) noSel

/-- The journal author slug link, `/user/slug/`. -/
def slugEl7 : Elem :=
  .mk (("a").data) [((("href").data), (("/user/slug/").data))] [] .nil noSel

/-- The journal comment counter, `0`. -/
def numEl7 : Elem :=
  .mk (("span").data) [] [] (NodeList.text (("0").data) NodeList.nil) noSel

/-- A journal document with the header block removed and the footer block
present. -/
def journalDoc7 : Html :=
  ⟨fun s =>
    if s = (".journal-item").data then .cons jItem7 .nil
    else if s = ("h2.journal-title").data then .cons titleEl8 .nil
    else if s = ("h2.journal-title + div .popup_date").data then .cons dateFix .nil
    else if s = ("#user-profile .username h2").data then .cons userEl7 .nil
    else if s = ("#user-profile .user-nav a[href^=\x27/user/\x27]").data then .cons slugEl7 .nil
    else if s = ("#user-profile img.user-nav-avatar").data then .cons avEl8 .nil
    else if s = (".journal-body-theme + div.section-footer span").data then .cons numEl7 .nil
    else .nil⟩

/-- The request URL `/journal/1/`. -/
def journalUrl1 : Url := ⟨some [("journal").data, ("1").data, []], [], none⟩

/-- The inline script of the listing fixture, `var descriptions = {}`. -/
def scriptEl3 : Elem :=
  .mk (("script").data) [] []
    (NodeList.text (("var descriptions = \x7b\x7d").data) NodeList.nil) noSel

/-- A serde decoder for the listing fixture: the empty object decodes to
the empty key-value sequence. -/
def parseDescs3 : Str → Option (List (Str × SubInfo)) :=
  fun s => if s = ("\x7b\x7d").data then some [] else none

/-- The preview image of the listing figure. -/
def imgEl3 : Elem :=
  .mk (("img").data) [((("src").data), (("p.jpg").data))] [] .nil noSel

/-- A gallery figure with id `sid-5` and rating class `r-general`. -/
def figEl3 : Elem :=
  .mk (("figure").data)
    [((("class").data), (("r-general").data)), ((("id").data), (("sid-5").data))]
    [] .nil
    (fun s => if s = ("img").data then .cons imgEl3 .nil else .nil)

/-- A submissions-listing document whose one figure has no JSON entry. -/
def listingDoc3 : Html :=
  ⟨fun s =>
    if s = ("script").data then .cons scriptEl3 .nil
    else if s = ("section[id^=\x27gallery-\x27] > figure").data then .cons figEl3 .nil
    else .nil⟩

/-- Whether a gallery figure passes every per-figure check of the loop
before the map lookup: a rating class, a `sid-` id that parses, and a
preview image with a source. -/
def validFig (f : Elem) : Bool :=
  match lookupA f.attrs (("class").data) with
  | none => false
  | some cls =>
    (containsSeq (("r-adult").data) cls || containsSeq (("r-mature").data) cls ||
      containsSeq (("r-general").data) cls) &&
    (match lookupA f.attrs (("id").data) with
     | none => false
     | some id_attr =>
       (("sid-").data).isPrefixOf id_attr &&
       (parseU64 (id_attr.drop 4)).isSome &&
       (match (f.sel (("img").data)).head? with
        | none => false
        | some img => (lookupA img.attrs (("src").data)).isSome))

/-- The numeric id of a gallery figure. -/
def figId (f : Elem) : Nat :=
  match lookupA f.attrs (("id").data) with
  | some id_attr => (parseU64 (id_attr.drop 4)).getD 0
  | none => 0

/-- The keys of the id-keyed metadata map. -/
def mapKeys (m : List (Nat × SubInfo)) : List Nat := m.map Prod.fst

/-! ## Lemmas about numerals and splitting -/

theorem toDigitsRevFuel_congr :
    ∀ f1 f2 n, n ≤ f1 → n ≤ f2 → toDigitsRevFuel f1 n = toDigitsRevFuel f2 n := by
  intro f1
  induction f1 with
  | zero =>
    intro f2 n h1 _
    interval_cases n
    cases f2 <;> simp [toDigitsRevFuel]
  | succ f ih =>
    intro f2 n h1 h2
    by_cases hn : n < 10
    · cases f2 <;> simp [toDigitsRevFuel, hn]
    · cases f2 with
      | zero => omega
      | succ f2' =>
        simp only [toDigitsRevFuel, if_neg hn]
        have hd : n / 10 < n := Nat.div_lt_self (by omega) (by omega)
        rw [ih f2' (n / 10) (by omega) (by omega)]

theorem toDigitsRev_eq (n : Nat) :
    toDigitsRev n = if n < 10 then [n] else n % 10 :: toDigitsRev (n / 10) := by
  unfold toDigitsRev
  cases n with
  | zero => simp [toDigitsRevFuel]
  | succ m =>
    by_cases hn : m + 1 < 10
    · simp [toDigitsRevFuel, hn]
    · simp only [toDigitsRevFuel, if_neg hn]
      have hd : (m + 1) / 10 < m + 1 := Nat.div_lt_self (by omega) (by omega)
      rw [toDigitsRevFuel_congr m ((m + 1) / 10) ((m + 1) / 10) (by omega) (le_refl _)]

theorem toDigitsRev_ne_nil (n : Nat) : toDigitsRev n ≠ [] := by
  rw [toDigitsRev_eq]
  split <;> simp

theorem toDigitsRev_lt_ten (n : Nat) : ∀ d ∈ toDigitsRev n, d < 10 := by
  induction n using Nat.strong_induction_on with
  | _ n ih =>
    rw [toDigitsRev_eq]
    split
    · intro d hd
      simp at hd
      omega
    · intro d hd
      rcases List.mem_cons.mp hd with h | h
      · subst h
        exact Nat.mod_lt _ (by omega)
      · exact ih (n / 10) (Nat.div_lt_self (by omega) (by omega)) d h

theorem digitChar_isDigit {d : Nat} (h : d < 10) :
    (Nat.digitChar d).isDigit = true := by
  interval_cases d <;> decide

theorem digitChar_toNat {d : Nat} (h : d < 10) :
    (Nat.digitChar d).toNat - 48 = d := by
  interval_cases d <;> decide

theorem digitChar_ne_plus {d : Nat} (h : d < 10) : Nat.digitChar d ≠ '+' := by
  interval_cases d <;> decide

theorem foldl_toDigitsRev (n : Nat) : ∀ a : Nat,
    ((toDigitsRev n).reverse).foldl (fun acc d => acc * 10 + d) a =
      a * 10 ^ (toDigitsRev n).length + n := by
  induction n using Nat.strong_induction_on with
  | _ n ih =>
    intro a
    rw [toDigitsRev_eq]
    by_cases hn : n < 10
    · simp [hn]
    · simp only [if_neg hn, List.reverse_cons, List.foldl_append, List.foldl_cons,
        List.foldl_nil, List.length_cons]
      rw [ih (n / 10) (Nat.div_lt_self (by omega) (by omega)) a]
      have := Nat.div_add_mod n 10
      ring_nf
      omega

theorem natToChars_ne_nil (n : Nat) : natToChars n ≠ [] := by
  simp [natToChars, toDigitsRev_ne_nil n]

theorem natToChars_all_digits (n : Nat) :
    (natToChars n).all Char.isDigit = true := by
  simp only [natToChars, List.all_eq_true]
  intro c hc
  rcases List.mem_map.mp hc with ⟨d, hd, rfl⟩
  exact digitChar_isDigit (toDigitsRev_lt_ten n d (List.mem_reverse.mp hd))

theorem mem_natToChars_isDigit {n : Nat} {c : Char} (h : c ∈ natToChars n) :
    c.isDigit = true := by
  have := natToChars_all_digits n
  rw [List.all_eq_true] at this
  exact this c h

theorem isDigit_ne {c x : Char} (h : c.isDigit = true) (hx : x.isDigit = false) :
    c ≠ x := by
  intro he
  rw [he, hx] at h
  cases h

theorem foldl_map_digitChar :
    ∀ (l : List Nat), (∀ d ∈ l, d < 10) → ∀ a : Nat,
      (l.map Nat.digitChar).foldl (fun acc c => acc * 10 + (c.toNat - 48)) a =
        l.foldl (fun acc d => acc * 10 + d) a := by
  intro l
  induction l with
  | nil => intro _ a; rfl
  | cons d t ih =>
    intro hlt a
    simp only [List.map_cons, List.foldl_cons]
    rw [digitChar_toNat (hlt d (List.mem_cons_self _ _))]
    exact ih (fun x hx => hlt x (List.mem_cons_of_mem _ hx)) _

theorem digitsVal_natToChars (n : Nat) : digitsVal (natToChars n) = n := by
  have hmap : digitsVal (natToChars n) =
      ((toDigitsRev n).reverse).foldl (fun acc d => acc * 10 + d) 0 := by
    simp only [digitsVal, natToChars]
    exact foldl_map_digitChar _
      (fun d hd => toDigitsRev_lt_ten n d (List.mem_reverse.mp hd)) 0
  rw [hmap, foldl_toDigitsRev]
  simp

theorem stripPlus_natToChars (n : Nat) : stripPlus (natToChars n) = natToChars n := by
  cases h : natToChars n with
  | nil => rfl
  | cons c r =>
    have hc : c ∈ natToChars n := by rw [h]; exact List.mem_cons_self _ _
    have : c ≠ '+' := by
      intro he
      have := mem_natToChars_isDigit hc
      rw [he] at this
      cases this
    simp [stripPlus, this]

/-- The decimal formatter and the unsigned-integer parser cancel, at any
width that bounds the value. -/
theorem parseUInt_natToChars {w n : Nat} (h : n < 2 ^ w) :
    parseUInt w (natToChars n) = some n := by
  simp only [parseUInt, parseUIntCore, stripPlus_natToChars,
    natToChars_all_digits, if_neg (natToChars_ne_nil n), if_pos,
    digitsVal_natToChars]
  simp [h]

theorem parseUInt_lt {w : Nat} {cs : Str} {n : Nat} (h : parseUInt w cs = some n) :
    n < 2 ^ w := by
  cases hc : parseUIntCore cs with
  | none => simp [parseUInt, hc] at h
  | some m =>
    simp only [parseUInt, hc] at h
    by_cases hm : m < 2 ^ w
    · rw [if_pos hm] at h
      cases h
      exact hm
    · rw [if_neg hm] at h
      cases h

theorem parseU64_natToChars {n : Nat} (h : n < 2 ^ 64) :
    parseU64 (natToChars n) = some n := parseUInt_natToChars h

theorem splitCh_ne_nil (sep : Char) (cs : Str) : splitCh sep cs ≠ [] := by
  induction cs with
  | nil => simp [splitCh]
  | cons c t ih =>
    simp only [splitCh]
    cases h : splitCh sep t with
    | nil => simp
    | cons h' t' =>
      by_cases hc : c = sep <;> simp [hc]

theorem splitCh_not_mem {sep : Char} {cs : Str} (h : sep ∉ cs) :
    splitCh sep cs = [cs] := by
  induction cs with
  | nil => rfl
  | cons c t ih =>
    have hc : c ≠ sep := fun he => h (he ▸ List.mem_cons_self _ _)
    have ht : sep ∉ t := fun hm => h (List.mem_cons_of_mem _ hm)
    simp only [splitCh, ih ht]
    simp [hc]

theorem splitCh_append (sep : Char) (xs ys : Str) (h : sep ∉ xs) :
    splitCh sep (xs ++ sep :: ys) = xs :: splitCh sep ys := by
  induction xs with
  | nil =>
    simp only [List.nil_append, splitCh]
    cases hy : splitCh sep ys with
    | nil => exact absurd hy (splitCh_ne_nil sep ys)
    | cons h' t' => simp
  | cons x xs ih =>
    have hx : x ≠ sep := fun he => h (he ▸ List.mem_cons_self _ _)
    have hxs : sep ∉ xs := fun hm => h (List.mem_cons_of_mem _ hm)
    simp only [List.cons_append, splitCh, List.append_eq]
    rw [ih hxs]
    simp [hx]


/-! ## Lemmas about the key codec -/

theorem not_mem_natToChars {x : Char} (hx : x.isDigit = false) (n : Nat) :
    x ∉ natToChars n := by
  intro hm
  rw [mem_natToChars_isDigit hm] at hx
  cases hx

theorem viewKey_ok_lt {u : Url} {k : ViewKey}
    (h : ViewKey.tryFrom u = .ok k) : k.view_id < 2 ^ 64 := by
  obtain ⟨ps, q, f⟩ := u
  cases ps with
  | none => simp [ViewKey.tryFrom] at h
  | some segs =>
    cases segs with
    | nil => simp [ViewKey.tryFrom] at h
    | cons s1 rest =>
      by_cases hs : s1 = ("view").data
      · cases rest with
        | nil => simp [ViewKey.tryFrom, hs] at h
        | cons t rest2 =>
          cases hp : parseU64 t with
          | none => simp [ViewKey.tryFrom, hs, hp] at h
          | some v =>
            simp [ViewKey.tryFrom, hs, hp] at h
            rw [← h]
            exact parseUInt_lt hp
      · simp [ViewKey.tryFrom, hs] at h

theorem journalKey_ok_lt {u : Url} {k : JournalKey}
    (h : JournalKey.tryFrom u = .ok k) : k.journal_id < 2 ^ 64 := by
  obtain ⟨ps, q, f⟩ := u
  cases ps with
  | none => simp [JournalKey.tryFrom] at h
  | some segs =>
    cases segs with
    | nil => simp [JournalKey.tryFrom] at h
    | cons s1 rest =>
      by_cases hs : s1 = ("journal").data
      · cases rest with
        | nil => simp [JournalKey.tryFrom, hs] at h
        | cons t rest2 =>
          cases hp : parseU64 t with
          | none => simp [JournalKey.tryFrom, hs, hp] at h
          | some v =>
            simp [JournalKey.tryFrom, hs, hp] at h
            rw [← h]
            exact parseUInt_lt hp
      · simp [JournalKey.tryFrom, hs] at h

theorem submissionsKey_ok_after_lt {u : Url} {k : SubmissionsKey}
    (h : SubmissionsKey.tryFrom u = .ok k) :
    ∀ a, k.after = some a → a < 2 ^ 64 := by
  obtain ⟨ps, q, f⟩ := u
  cases ps with
  | none => simp [SubmissionsKey.tryFrom] at h
  | some segs =>
    cases segs with
    | nil => simp [SubmissionsKey.tryFrom] at h
    | cons s1 rest1 =>
      by_cases h1 : s1 = ("msg").data
      case neg => simp [SubmissionsKey.tryFrom, h1] at h
      cases rest1 with
      | nil => simp [SubmissionsKey.tryFrom, h1] at h
      | cons s2 rest2 =>
        by_cases h2 : s2 = ("submissions").data
        case neg => simp [SubmissionsKey.tryFrom, h1, h2] at h
        cases rest2 with
        | nil =>
          simp [SubmissionsKey.tryFrom, h1, h2] at h
          rw [← h]
          intro a ha
          cases ha
        | cons seg rest3 =>
          cases hsp : splitCh '@' seg with
          | nil => simp [SubmissionsKey.tryFrom, h1, h2, hsp] at h
          | cons orderId tl =>
            cases hsp2 : splitCh '~' orderId with
            | nil => simp [SubmissionsKey.tryFrom, h1, h2, hsp, hsp2] at h
            | cons orderTxt parts =>
              by_cases hnew : orderTxt = ("new").data
              · cases parts with
                | nil =>
                  simp [SubmissionsKey.tryFrom, h1, h2, hsp, hsp2, hnew] at h
                  rw [← h]
                  intro a ha
                  cases ha
                | cons x ptl =>
                  cases hp : parseU64 x with
                  | none =>
                    simp [SubmissionsKey.tryFrom, h1, h2, hsp, hsp2, hnew, hp] at h
                  | some a =>
                    simp [SubmissionsKey.tryFrom, h1, h2, hsp, hsp2, hnew, hp] at h
                    rw [← h]
                    intro b hb
                    cases hb
                    exact parseUInt_lt hp
              · by_cases hold : orderTxt = ("old").data
                case neg =>
                  simp [SubmissionsKey.tryFrom, h1, h2, hsp, hsp2, hnew, hold] at h
                cases parts with
                | nil =>
                  simp [SubmissionsKey.tryFrom, h1, h2, hsp, hsp2, hnew, hold] at h
                  rw [← h]
                  intro a ha
                  cases ha
                | cons x ptl =>
                  cases hp : parseU64 x with
                  | none =>
                    simp [SubmissionsKey.tryFrom, h1, h2, hsp, hsp2, hnew, hold, hp] at h
                  | some a =>
                    simp [SubmissionsKey.tryFrom, h1, h2, hsp, hsp2, hnew, hold, hp] at h
                    rw [← h]
                    intro b hb
                    cases hb
                    exact parseUInt_lt hp

theorem submissionsKey_roundFormat {k : SubmissionsKey}
    (hb : ∀ a, k.after = some a → a < 2 ^ 64) :
    SubmissionsKey.tryFrom (SubmissionsKey.toUrl k) = .ok k := by
  obtain ⟨o, after⟩ := k
  cases after with
  | none => cases o <;> rfl
  | some a =>
    have ha : a < 2 ^ 64 := hb a rfl
    have hdig : '@' ∉ natToChars a := not_mem_natToChars (by decide) a
    have hdig2 : '~' ∉ natToChars a := not_mem_natToChars (by decide) a
    cases o with
    | ascending =>
      have hxs : '@' ∉ ("old").data ++ '~' :: natToChars a := by
        intro hm
        rcases List.mem_append.mp hm with hm | hm
        · revert hm; decide
        · rcases List.mem_cons.mp hm with hm | hm
          · cases hm
          · exact hdig hm
      have h1 : splitCh '@'
          ((("old").data ++ '~' :: natToChars a) ++ '@' :: ('7' :: '2' :: [])) =
          (("old").data ++ '~' :: natToChars a) :: splitCh '@' ('7' :: '2' :: []) :=
        splitCh_append '@' (("old").data ++ '~' :: natToChars a) ('7' :: '2' :: []) hxs
      have h2 : splitCh '~' ('o' :: 'l' :: 'd' :: '~' :: natToChars a) =
          ('o' :: 'l' :: 'd' :: []) :: splitCh '~' (natToChars a) :=
        splitCh_append '~' ('o' :: 'l' :: 'd' :: []) (natToChars a) (by decide)
      have h3 : splitCh '~' (natToChars a) = [natToChars a] :=
        splitCh_not_mem hdig2
      simp only [SubmissionsKey.tryFrom, SubmissionsKey.toUrl, Order.text]
      have hseg : ("old").data ++ ('~' :: natToChars a) ++ ("@72").data =
          (("old").data ++ '~' :: natToChars a) ++ '@' :: ('7' :: '2' :: []) := by
        simp
      rw [hseg, h1]
      simp +decide [h2, h3, parseU64_natToChars ha]
    | descending =>
      have hxs : '@' ∉ ("new").data ++ '~' :: natToChars a := by
        intro hm
        rcases List.mem_append.mp hm with hm | hm
        · revert hm; decide
        · rcases List.mem_cons.mp hm with hm | hm
          · cases hm
          · exact hdig hm
      have h1 : splitCh '@'
          ((("new").data ++ '~' :: natToChars a) ++ '@' :: ('7' :: '2' :: [])) =
          (("new").data ++ '~' :: natToChars a) :: splitCh '@' ('7' :: '2' :: []) :=
        splitCh_append '@' (("new").data ++ '~' :: natToChars a) ('7' :: '2' :: []) hxs
      have h2 : splitCh '~' ('n' :: 'e' :: 'w' :: '~' :: natToChars a) =
          ('n' :: 'e' :: 'w' :: []) :: splitCh '~' (natToChars a) :=
        splitCh_append '~' ('n' :: 'e' :: 'w' :: []) (natToChars a) (by decide)
      have h3 : splitCh '~' (natToChars a) = [natToChars a] :=
        splitCh_not_mem hdig2
      simp only [SubmissionsKey.tryFrom, SubmissionsKey.toUrl, Order.text]
      have hseg : ("new").data ++ ('~' :: natToChars a) ++ ("@72").data =
          (("new").data ++ '~' :: natToChars a) ++ '@' :: ('7' :: '2' :: []) := by
        simp
      rw [hseg, h1]
      simp +decide [h2, h3, parseU64_natToChars ha]

theorem viewKey_roundFormat {k : ViewKey} (hb : k.view_id < 2 ^ 64) :
    ViewKey.tryFrom (ViewKey.toUrl k) = .ok k := by
  simp [ViewKey.tryFrom, ViewKey.toUrl, parseU64_natToChars hb]

theorem journalKey_roundFormat {k : JournalKey} (hb : k.journal_id < 2 ^ 64) :
    JournalKey.tryFrom (JournalKey.toUrl k) = .ok k := by
  simp [JournalKey.tryFrom, JournalKey.toUrl, parseU64_natToChars hb]

/-- C1: round-trip closure of the key codec.  Every URL that parses
successfully into a `ViewKey`, a `JournalKey` (spec-modelled) or a
`SubmissionsKey` yields a key whose formatted URL re-parses, with the same
key type, to an equal key.  For `FavKey` and `CommentReplyKey` the
key-to-URL direction is one-directional action dispatch and no parse-back
is required by the claim. -/
theorem key_codec_round_trip :
    (∀ (u : Url) (k : ViewKey), ViewKey.tryFrom u = .ok k →
      ViewKey.tryFrom (ViewKey.toUrl k) = .ok k) ∧
    (∀ (u : Url) (k : JournalKey), JournalKey.tryFrom u = .ok k →
      JournalKey.tryFrom (JournalKey.toUrl k) = .ok k) ∧
    (∀ (u : Url) (k : SubmissionsKey), SubmissionsKey.tryFrom u = .ok k →
      SubmissionsKey.tryFrom (SubmissionsKey.toUrl k) = .ok k) :=
  ⟨fun _ _ h => viewKey_roundFormat (viewKey_ok_lt h),
   fun _ _ h => journalKey_roundFormat (journalKey_ok_lt h),
   fun _ _ h => submissionsKey_roundFormat (submissionsKey_ok_after_lt h)⟩

/-- Witness for C1 at concrete URLs: the view URL `/view/9573919/`, the
journal URL `/journal/9573919/`, and the submissions URL
`/msg/submissions/new~38549204@48/`. -/
theorem key_codec_round_trip_witness :
    ViewKey.tryFrom (ViewKey.toUrl ⟨9573919⟩) = .ok ⟨9573919⟩ ∧
    JournalKey.tryFrom (JournalKey.toUrl ⟨9573919⟩) = .ok ⟨9573919⟩ ∧
    SubmissionsKey.tryFrom (SubmissionsKey.toUrl ⟨Order.descending, some 38549204⟩) =
      .ok ⟨Order.descending, some 38549204⟩ :=
  ⟨key_codec_round_trip.1
      ⟨some [("view").data, ("9573919").data, []], [], none⟩ ⟨9573919⟩ (by rfl),
   key_codec_round_trip.2.1
      ⟨some [("journal").data, ("9573919").data, []], [], none⟩ ⟨9573919⟩ (by rfl),
   key_codec_round_trip.2.2
      ⟨some [("msg").data, ("submissions").data, ("new~38549204@48").data, []], [], none⟩
      ⟨Order.descending, some 38549204⟩ (by rfl)⟩

theorem all_digits_not_mem {cs : Str} {x : Char}
    (h : cs.all Char.isDigit = true) (hx : x.isDigit = false) : x ∉ cs := by
  intro hm
  have hd := List.all_eq_true.mp h _ hm
  simp [hx] at hd

theorem not_mem_append_cons {x c : Char} {xs ys : Str}
    (h1 : x ∉ xs) (h2 : x ≠ c) (h3 : x ∉ ys) : x ∉ xs ++ c :: ys := by
  intro hm
  rcases List.mem_append.mp hm with hm | hm
  · exact h1 hm
  · rcases List.mem_cons.mp hm with hm | hm
    · exact h2 hm
    · exact h3 hm

/-- Counterexample to C5.  The url crate parses the path
`/msg/submissions/` (the optional order segment absent, exactly as the
grammar of the claim writes it) into the segments `msg`, `submissions`,
`` — and on that URL `SubmissionsKey` parsing returns an error, not the
default key the claim requires. -/
theorem submissions_key_default_counterexample :
    SubmissionsKey.tryFrom
      ⟨some [("msg").data, ("submissions").data, []], [], none⟩ =
      .error .missingSegment := by rfl

/-- C5 as amended: the default key is produced only when the third path
segment is absent entirely (path `/msg/submissions` with no trailing
slash); with a trailing slash the empty third segment is treated as an
order token and fails.  When a segment is present, `old` yields Ascending
and `new` yields Descending, an optional `~<cursor>` suffix of decimal
digits sets the cursor, and any other order token fails. -/
theorem submissions_key_parse_amended :
    (∀ (q : List (Str × Str)) (f : Option Str),
      SubmissionsKey.tryFrom ⟨some [("msg").data, ("submissions").data], q, f⟩ =
        .ok SubmissionsKey.oldest) ∧
    (∀ (sfx : Str) (rest : List Str) (q : List (Str × Str)) (f : Option Str),
      SubmissionsKey.tryFrom
        ⟨some (("msg").data :: ("submissions").data ::
          (("old").data ++ '@' :: sfx) :: rest), q, f⟩ =
        .ok ⟨Order.ascending, none⟩) ∧
    (∀ (sfx : Str) (rest : List Str) (q : List (Str × Str)) (f : Option Str),
      SubmissionsKey.tryFrom
        ⟨some (("msg").data :: ("submissions").data ::
          (("new").data ++ '@' :: sfx) :: rest), q, f⟩ =
        .ok ⟨Order.descending, none⟩) ∧
    (∀ (ds : Str) (n : Nat) (sfx : Str) (rest : List Str)
        (q : List (Str × Str)) (f : Option Str),
      ds.all Char.isDigit = true → parseU64 ds = some n →
      SubmissionsKey.tryFrom
        ⟨some (("msg").data :: ("submissions").data ::
          (("old").data ++ '~' :: ds ++ '@' :: sfx) :: rest), q, f⟩ =
        .ok ⟨Order.ascending, some n⟩) ∧
    (∀ (ds : Str) (n : Nat) (sfx : Str) (rest : List Str)
        (q : List (Str × Str)) (f : Option Str),
      ds.all Char.isDigit = true → parseU64 ds = some n →
      SubmissionsKey.tryFrom
        ⟨some (("msg").data :: ("submissions").data ::
          (("new").data ++ '~' :: ds ++ '@' :: sfx) :: rest), q, f⟩ =
        .ok ⟨Order.descending, some n⟩) ∧
    (∀ (tok sfx : Str) (rest : List Str) (q : List (Str × Str)) (f : Option Str),
      '@' ∉ tok → '~' ∉ tok → tok ≠ ("old").data → tok ≠ ("new").data →
      SubmissionsKey.tryFrom
        ⟨some (("msg").data :: ("submissions").data ::
          (tok ++ '@' :: sfx) :: rest), q, f⟩ =
        .error .missingSegment) := by
  refine ⟨fun q f => rfl, ?_, ?_, ?_, ?_, ?_⟩
  · intro sfx rest q f
    have h1 := splitCh_append '@' (("old").data) sfx (by decide)
    simp only [SubmissionsKey.tryFrom]
    rw [h1]
    simp +decide [splitCh_not_mem (show '~' ∉ ("old").data by decide)]
  · intro sfx rest q f
    have h1 := splitCh_append '@' (("new").data) sfx (by decide)
    simp only [SubmissionsKey.tryFrom]
    rw [h1]
    simp +decide [splitCh_not_mem (show '~' ∉ ("new").data by decide)]
  · intro ds n sfx rest q f hall hp
    have hxs : '@' ∉ ("old").data ++ '~' :: ds :=
      not_mem_append_cons (by decide) (by decide) (all_digits_not_mem hall (by decide))
    have h1 := splitCh_append '@' (("old").data ++ '~' :: ds) sfx hxs
    have h2 : splitCh '~' ('o' :: 'l' :: 'd' :: '~' :: ds) =
        ('o' :: 'l' :: 'd' :: []) :: splitCh '~' ds :=
      splitCh_append '~' ('o' :: 'l' :: 'd' :: []) ds (by decide)
    have h3 : splitCh '~' ds = [ds] :=
      splitCh_not_mem (all_digits_not_mem hall (by decide))
    have hseg : ("old").data ++ '~' :: ds ++ '@' :: sfx =
        (("old").data ++ '~' :: ds) ++ '@' :: sfx := by simp
    simp only [SubmissionsKey.tryFrom]
    rw [hseg, h1]
    simp +decide [h2, h3, hp]
  · intro ds n sfx rest q f hall hp
    have hxs : '@' ∉ ("new").data ++ '~' :: ds :=
      not_mem_append_cons (by decide) (by decide) (all_digits_not_mem hall (by decide))
    have h1 := splitCh_append '@' (("new").data ++ '~' :: ds) sfx hxs
    have h2 : splitCh '~' ('n' :: 'e' :: 'w' :: '~' :: ds) =
        ('n' :: 'e' :: 'w' :: []) :: splitCh '~' ds :=
      splitCh_append '~' ('n' :: 'e' :: 'w' :: []) ds (by decide)
    have h3 : splitCh '~' ds = [ds] :=
      splitCh_not_mem (all_digits_not_mem hall (by decide))
    have hseg : ("new").data ++ '~' :: ds ++ '@' :: sfx =
        (("new").data ++ '~' :: ds) ++ '@' :: sfx := by simp
    simp only [SubmissionsKey.tryFrom]
    rw [hseg, h1]
    simp +decide [h2, h3, hp]
  · intro tok sfx rest q f hat htil hold hnew
    have h1 := splitCh_append '@' tok sfx hat
    have h2 : splitCh '~' tok = [tok] := splitCh_not_mem htil
    simp only [SubmissionsKey.tryFrom]
    rw [h1]
    simp +decide [h2, hold, hnew]

/-- Witness for C5 as amended, at the concrete URLs `/msg/submissions`
(two segments, default key), `/msg/submissions/old@48/`,
`/msg/submissions/new~7@48/`, and `/msg/submissions/xyz@48/`. -/
theorem submissions_key_parse_amended_witness :
    SubmissionsKey.tryFrom
      ⟨some [("msg").data, ("submissions").data], [], none⟩ =
      .ok SubmissionsKey.oldest ∧
    SubmissionsKey.tryFrom
      ⟨some (("msg").data :: ("submissions").data ::
        (("old").data ++ '@' :: ("48").data) :: ([] :: [])), [], none⟩ =
      .ok ⟨Order.ascending, none⟩ ∧
    SubmissionsKey.tryFrom
      ⟨some (("msg").data :: ("submissions").data ::
        (("new").data ++ '~' :: ("7").data ++ '@' :: ("48").data) :: ([] :: [])), [], none⟩ =
      .ok ⟨Order.descending, some 7⟩ ∧
    SubmissionsKey.tryFrom
      ⟨some (("msg").data :: ("submissions").data ::
        (("xyz").data ++ '@' :: ("48").data) :: ([] :: [])), [], none⟩ =
      .error .missingSegment :=
  ⟨submissions_key_parse_amended.1 [] none,
   submissions_key_parse_amended.2.1 (("48").data) ([] :: []) [] none,
   submissions_key_parse_amended.2.2.2.2.1 (("7").data) 7 (("48").data)
     ([] :: []) [] none (by decide) (by rfl),
   submissions_key_parse_amended.2.2.2.2.2 (("xyz").data) (("48").data)
     ([] :: []) [] none (by decide) (by decide) (by decide) (by decide)⟩

/-- C10: `CommentReplyKey` parsing ignores the path id whenever a
well-formed `cid:` fragment is present.  For every URL whose first path
segment is `view` or `journal` and whose fragment is `cid:` followed by a
decimal numeral in range, parsing succeeds with the comment target taken
from the fragment, whatever the remaining path segments are (missing or
non-numeric id segments included). -/
theorem comment_reply_fragment_priority :
    ∀ (rest : List Str) (q : List (Str × Str)) (ds : Str) (n : Nat),
      parseU64 ds = some n →
      (ReplyTo.tryFrom
        ⟨some (("view").data :: rest), q, some (("cid:").data ++ ds)⟩ =
        .ok (.viewComment n)) ∧
      (ReplyTo.tryFrom
        ⟨some (("journal").data :: rest), q, some (("cid:").data ++ ds)⟩ =
        .ok (.journalComment n)) ∧
      (CommentReplyKey.tryFrom
        ⟨some (("view").data :: rest), q, some (("cid:").data ++ ds)⟩ =
        .ok ⟨.viewComment n⟩) ∧
      (CommentReplyKey.tryFrom
        ⟨some (("journal").data :: rest), q, some (("cid:").data ++ ds)⟩ =
        .ok ⟨.journalComment n⟩) := by
  intro rest q ds n hp
  have hpre : (("cid:").data).isPrefixOf ('c' :: 'i' :: 'd' :: ':' :: ds) = true := by
    rw [List.isPrefixOf_iff_prefix]
    exact List.prefix_append (("cid:").data) ds
  have hdrop : List.drop 4 ('c' :: 'i' :: 'd' :: ':' :: ds) = ds := rfl
  have hfrag : ∀ ps : Option (List Str),
      ReplyTo.parse_fragment ⟨ps, q, some ('c' :: 'i' :: 'd' :: ':' :: ds)⟩ =
        some (.ok n) := by
    intro ps
    simp [ReplyTo.parse_fragment, hpre, hdrop, hp]
  have hv : ReplyTo.tryFrom
      ⟨some (('v' :: 'i' :: 'e' :: 'w' :: []) :: rest), q,
        some ('c' :: 'i' :: 'd' :: ':' :: ds)⟩ =
      .ok (.viewComment n) := by
    simp +decide [ReplyTo.tryFrom, hfrag]
  have hj : ReplyTo.tryFrom
      ⟨some (('j' :: 'o' :: 'u' :: 'r' :: 'n' :: 'a' :: 'l' :: []) :: rest), q,
        some ('c' :: 'i' :: 'd' :: ':' :: ds)⟩ =
      .ok (.journalComment n) := by
    simp +decide [ReplyTo.tryFrom, hfrag]
  have hkv : CommentReplyKey.tryFrom
      ⟨some (('v' :: 'i' :: 'e' :: 'w' :: []) :: rest), q,
        some ('c' :: 'i' :: 'd' :: ':' :: ds)⟩ =
      .ok ⟨.viewComment n⟩ := by
    simp only [CommentReplyKey.tryFrom]
    rw [hv]
  have hkj : CommentReplyKey.tryFrom
      ⟨some (('j' :: 'o' :: 'u' :: 'r' :: 'n' :: 'a' :: 'l' :: []) :: rest), q,
        some ('c' :: 'i' :: 'd' :: ':' :: ds)⟩ =
      .ok ⟨.journalComment n⟩ := by
    simp only [CommentReplyKey.tryFrom]
    rw [hj]
  exact ⟨hv, hj, hkv, hkj⟩

/-- Witness for C10 at the concrete URLs `/view/#cid:7` and
`/journal/#cid:7` (id path segment entirely absent). -/
theorem comment_reply_fragment_priority_witness :
    ReplyTo.tryFrom ⟨some [("view").data, []], [], some (("cid:7").data)⟩ =
      .ok (.viewComment 7) ∧
    CommentReplyKey.tryFrom
      ⟨some [("journal").data, []], [], some (("cid:7").data)⟩ =
      .ok ⟨.journalComment 7⟩ :=
  ⟨(comment_reply_fragment_priority ([] :: []) [] (("7").data) 7 (by rfl)).1,
   (comment_reply_fragment_priority ([] :: []) [] (("7").data) 7 (by rfl)).2.2.2⟩

/-! ## Plumbing lemmas for the result monads -/

@[simp] theorem PResult.bind_ok_l (a : α) (f : α → PResult β) :
    (PResult.ok a >>= f) = f a := rfl

@[simp] theorem PResult.bind_err_l (e : ParseError) (f : α → PResult β) :
    (PResult.err e >>= f) = PResult.err e := rfl

@[simp] theorem PResult.bind_panic_l (m : Str) (f : α → PResult β) :
    (PResult.panic m >>= f) = PResult.panic m := rfl

@[simp] theorem PResult.pure_eq (a : α) : (pure a : PResult α) = PResult.ok a := rfl

@[simp] theorem liftE_ok (a : α) : liftE (Except.ok a) = PResult.ok a := rfl

@[simp] theorem liftE_error (e : ParseError) :
    (liftE (Except.error e) : PResult α) = PResult.err e := rfl

@[simp] theorem exceptBind_ok (a : α) (f : α → Except ParseError β) :
    ((Except.ok a : Except ParseError α) >>= f) = f a := rfl

@[simp] theorem exceptBind_error (e : ParseError) (f : α → Except ParseError β) :
    ((Except.error e : Except ParseError α) >>= f) = Except.error e := rfl

@[simp] theorem exceptPure_eq (a : α) :
    (pure a : Except ParseError α) = Except.ok a := rfl

/-! ## C4 and C9: comment depth decoding -/

/-- Counterexample to C4.  The style `width:ab%` starts with `width:`,
ends with `%` and has length 9 — the three conditions of the claim — yet
depth decoding fails (and with `InvalidInteger`, not `InvalidDepth`),
because the middle must additionally parse as an unsigned 8-bit integer. -/
theorem comment_depth_decoding_counterexample :
    CommentContainer.extract_width (elemWithStyle (("width:ab%").data)) =
      .error .invalidInteger ∧
    (("width:").data).isPrefixOf (("width:ab%").data) = true ∧
    (("width:ab%").data).getLast? = some '%' ∧
    (("width:ab%").data).length = 9 := ⟨rfl, rfl, rfl, rfl⟩

/-- C4 as amended: with the style attribute present, depth decoding
succeeds with width `w` exactly when the style starts with `width:`, ends
with `%`, has total length 8 to 10, and its middle parses as an unsigned
8-bit integer equal to `w`.  Length 7, length 11 and a missing `%` suffix
each fail with `InvalidDepth`; a missing style attribute fails with the
distinct `MissingAttribute`; and the depth formula `(100 - width) / 3`
gives 1, 0 and 20 at widths 97, 100 and 40. -/
theorem comment_depth_decoding_amended :
    (∀ (e : Elem) (s : Str), lookupA e.attrs (("style").data) = some s →
      ∀ w, (CommentContainer.extract_width e = .ok w ↔
        ((("width:").data).isPrefixOf s = true ∧ s.getLast? = some '%' ∧
          8 ≤ s.length ∧ s.length ≤ 10 ∧
          parseU8 ((s.drop 6).take (s.length - 1 - 6)) = some w))) ∧
    (∀ e : Elem, lookupA e.attrs (("style").data) = none →
      CommentContainer.extract_width e =
        .error (.missingAttribute (("style").data))) ∧
    (CommentContainer.extract_width (elemWithStyle (("width:%").data)) =
      .error (.invalidDepth (("width:%").data))) ∧
    (CommentContainer.extract_width (elemWithStyle (("width:1000%").data)) =
      .error (.invalidDepth (("width:1000%").data))) ∧
    (CommentContainer.extract_width (elemWithStyle (("width:97").data)) =
      .error (.invalidDepth (("width:97").data))) ∧
    (∀ s : Str, ParseError.invalidDepth s ≠ ParseError.missingAttribute (("style").data)) ∧
    (depthOfWidth 97 = 1 ∧ depthOfWidth 100 = 0 ∧ depthOfWidth 40 = 20) := by
  refine ⟨?_, ?_, rfl, rfl, rfl, fun s h => ParseError.noConfusion h, by decide⟩
  · intro e s hs w
    simp only [CommentContainer.extract_width, attrE, hs, exceptBind_ok]
    by_cases h1 : (("width:").data).isPrefixOf s <;>
      by_cases h2 : s.getLast? = some '%' <;>
        by_cases h3 : 8 ≤ s.length <;>
          by_cases h4 : s.length ≤ 10 <;>
            cases hp : parseU8 ((s.drop 6).take (s.length - 1 - 6)) <;>
              simp [h1, h2, h3, h4, hp]
  · intro e hs
    simp only [CommentContainer.extract_width, attrE, hs]
    rfl

/-- Witness for C4 as amended, at the style `width:97%`. -/
theorem comment_depth_decoding_amended_witness :
    CommentContainer.extract_width (elemWithStyle (("width:97%").data)) = .ok 97 :=
  (comment_depth_decoding_amended.1 (elemWithStyle (("width:97%").data))
    (("width:97%").data) rfl 97).mpr (by refine ⟨rfl, rfl, ?_, ?_, ?_⟩ <;> decide)

theorem natToChars_length_three {w : Nat} (h1 : 100 ≤ w) (h2 : w < 1000) :
    (natToChars w).length = 3 := by
  have hlen : (toDigitsRev w).length = 3 := by
    rw [toDigitsRev_eq, if_neg (by omega)]
    rw [toDigitsRev_eq, if_neg (by omega)]
    rw [toDigitsRev_eq, if_pos (by omega)]
    rfl
  simp [natToChars, hlen]

/-- C9: the implicit precondition of depth decoding.  For a comment
element whose wrapper style is `width:<w>%` with `101 ≤ w ≤ 255`, width
extraction succeeds (any 1-to-3-digit percentage fitting a `u8` is
accepted), but the depth computation `(100 - width) / 3` underflows the
unsigned subtraction, so `CommentContainer::extract` panics instead of
returning any `ParseError`. -/
theorem comment_depth_overflow :
    ∀ (e : Elem) (w : Nat) (L : UrlLib) (parseDT : Str → Option Nat)
      (u : Url) (root : CommentRoot),
      lookupA e.attrs (("style").data) =
        some ((("width:").data) ++ natToChars w ++ ('%' :: [])) →
      101 ≤ w → w ≤ 255 →
      CommentContainer.extract_width e = .ok w ∧
      CommentContainer.extract L parseDT u root e = .panic overflowMsg := by
  intro e w L parseDT u root hs h101 h255
  have hlen3 : (natToChars w).length = 3 := natToChars_length_three (by omega) (by omega)
  have hwidth : CommentContainer.extract_width e = .ok w := by
    have hshape : (("width:").data) ++ natToChars w ++ ('%' :: []) =
        (("width:").data ++ natToChars w) ++ ('%' :: []) := by simp
    have hpre : (("width:").data).isPrefixOf
        ((("width:").data) ++ natToChars w ++ ('%' :: [])) = true := by
      rw [List.isPrefixOf_iff_prefix, List.append_assoc]
      exact List.prefix_append _ _
    have hlast : ((("width:").data) ++ natToChars w ++ ('%' :: [])).getLast? =
        some '%' := by
      rw [hshape]
      exact List.getLast?_concat _
    have hlentot : ((("width:").data) ++ natToChars w ++ ('%' :: [])).length = 10 := by
      simp [hlen3]
    have hdrop : ((("width:").data) ++ natToChars w ++ ('%' :: [])).drop 6 =
        natToChars w ++ ('%' :: []) := by
      rw [List.append_assoc]
      exact List.drop_left' (by rfl)
    have htake : (natToChars w ++ ('%' :: [])).take 3 = natToChars w := by
      rw [← hlen3]
      exact List.take_left _ _
    simp only [CommentContainer.extract_width, attrE, hs, exceptBind_ok, hpre,
      hlast, hlentot, hdrop]
    norm_num
    rw [htake, show parseU8 (natToChars w) = some w from parseUInt_natToChars (by omega)]
  refine ⟨hwidth, ?_⟩
  simp only [CommentContainer.extract, hwidth, liftE_ok, PResult.bind_ok_l,
    rustSub, if_neg (by omega : ¬ w ≤ 100), PResult.bind_panic_l]

/-- Witness for C9 at width 101 on a concrete comment element. -/
theorem comment_depth_overflow_witness :
    CommentContainer.extract_width (elemWithStyle (("width:101%").data)) = .ok 101 ∧
    CommentContainer.extract L0 pd0 dummyUrl (CommentRoot.view 0)
      (elemWithStyle (("width:101%").data)) = .panic overflowMsg :=
  comment_depth_overflow (elemWithStyle (("width:101%").data)) 101 L0 pd0
    dummyUrl (CommentRoot.view 0) (by rfl) (by decide) (by decide)

/-! ## C2: content gating -/

/-- C2: for every document in which the submission image element is absent
and the mature-block marker is present, `View::from_html` returns the
dedicated `Nsfw` error — never a structural error — before attempting the
flash-embed fallback (the result does not depend on any flash content). -/
theorem view_content_gated :
    ∀ (L : UrlLib) (parseDT : Str → Option Nat) (u : Url) (d : Html),
      d.sel (("img#submissionImg").data) = .nil →
      d.sel (("#pageid-matureimage-error").data) ≠ .nil →
      View.from_html L parseDT u d = .err .nsfw := by
  intro L parseDT u d h1 h2
  obtain ⟨e, t, hm⟩ : ∃ e t, d.sel (("#pageid-matureimage-error").data) = .cons e t := by
    cases hc : d.sel (("#pageid-matureimage-error").data) with
    | nil => exact absurd hc h2
    | cons e t => exact ⟨e, t, rfl⟩
  have hpre : View.viewPre L parseDT u d = .err .nsfw := by
    simp only [View.viewPre, select_first, h1, hm, ElemList.head?]
    rfl
  simp only [View.from_html, hpre, PResult.bind_err_l]

/-- Witness for C2 on a concrete gated document. -/
theorem view_content_gated_witness :
    View.from_html L0 pd0 dummyUrl gatedDoc = .err .nsfw :=
  view_content_gated L0 pd0 dummyUrl gatedDoc (by rfl)
    (fun h => ElemList.noConfusion h)

/-! ## C6: comment body simplification -/

/-- Counterexample to C6.  On a submission view page the decoded comment
stores the trimmed inner HTML of the body element (`<p>t</p>` here), which
differs from the markup simplifier output on that body (`t` here). -/
theorem comment_simplify_counterexample :
    textOfV (View.extract_comment L0 pd0 dummyUrl 7 commentFix) =
      some (("<p>t</p>").data) ∧
    simplify L0 dummyUrl bodyFix = (("t").data) ∧
    some (("<p>t</p>").data) ≠ some ((("t").data) : Str) :=
  ⟨rfl, rfl, by decide⟩

/-- C6 as amended: the shared comment decoder (journal and message pages)
stores the markup simplifier output on the body element resolved against
the page base URL, but the submission view page uses its own comment
extractor, which stores the trimmed inner HTML of the body element
instead. -/
theorem comment_text_source_amended :
    (∀ (L : UrlLib) (parseDT : Str → Option Nat) (u : Url) (root : CommentRoot)
        (e body : Elem) (bs : ElemList),
      e.sel ((".comment_text").data) = .cons body bs →
      (textOfC (CommentContainer.extract L parseDT u root e)).isSome = true →
      textOfC (CommentContainer.extract L parseDT u root e) =
        some (simplify L u body)) ∧
    (∀ (L : UrlLib) (parseDT : Str → Option Nat) (u : Url) (view_id : Nat)
        (e body : Elem) (bs : ElemList),
      e.sel ((".comment_text").data) = .cons body bs →
      (textOfV (View.extract_comment L parseDT u view_id e)).isSome = true →
      textOfV (View.extract_comment L parseDT u view_id e) =
        some (trimStr (innerHtml body))) := by
  constructor
  · intro L parseDT u root e body bs hsel hsome
    cases hw : CommentContainer.extract_width e with
    | error er => simp_all [CommentContainer.extract, textOfC]
    | ok w =>
      by_cases hsub : w ≤ 100
      · cases ha : select_first_elem e (("a.comment_anchor[id^=\x27cid:\x27]").data) with
        | error er =>
          simp_all [CommentContainer.extract, rustSub, textOfC]
        | ok id_elem =>
          cases hid : attrE id_elem (("id").data) with
          | error er =>
            simp_all [CommentContainer.extract, rustSub, textOfC]
          | ok idv =>
            by_cases hlen : 4 ≤ idv.length
            · cases hcid : parseU64 (idv.drop 4) with
              | none =>
                simp_all [CommentContainer.extract, rustSub, sliceFrom,
                  parseNat64E, textOfC]
              | some cid =>
                cases ht : extractCommentTail L parseDT u e with
                | ok tl =>
                  simp_all [CommentContainer.extract, rustSub, sliceFrom,
                    parseNat64E, select_first_elem, ElemList.head?, textOfC]
                | err e2 =>
                  simp_all [CommentContainer.extract, rustSub, sliceFrom,
                    parseNat64E, select_first_elem, ElemList.head?, textOfC]
                | panic m =>
                  simp_all [CommentContainer.extract, rustSub, sliceFrom,
                    parseNat64E, select_first_elem, ElemList.head?, textOfC]
            · simp_all [CommentContainer.extract, rustSub, sliceFrom, textOfC]
      · simp_all [CommentContainer.extract, rustSub, textOfC]
  · intro L parseDT u view_id e body bs hsel hsome
    cases hw : View.extract_width e with
    | error er => simp_all [View.extract_comment, textOfV]
    | ok w =>
      by_cases hsub : w ≤ 100
      · cases ha : select_first_elem e (("a.comment_anchor[id^=\x27cid:\x27]").data) with
        | error er =>
          simp_all [View.extract_comment, rustSub, textOfV]
        | ok id_elem =>
          cases hid : attrE id_elem (("id").data) with
          | error er =>
            simp_all [View.extract_comment, rustSub, textOfV]
          | ok idv =>
            by_cases hlen : 4 ≤ idv.length
            · cases hcid : parseU64 (idv.drop 4) with
              | none =>
                simp_all [View.extract_comment, rustSub, sliceFrom,
                  parseNat64E, textOfV]
              | some cid =>
                cases ht : extractCommentTail L parseDT u e with
                | ok tl =>
                  simp_all [View.extract_comment, rustSub, sliceFrom,
                    parseNat64E, select_first_elem, ElemList.head?, textOfV]
                | err e2 =>
                  simp_all [View.extract_comment, rustSub, sliceFrom,
                    parseNat64E, select_first_elem, ElemList.head?, textOfV]
                | panic m =>
                  simp_all [View.extract_comment, rustSub, sliceFrom,
                    parseNat64E, select_first_elem, ElemList.head?, textOfV]
            · simp_all [View.extract_comment, rustSub, sliceFrom, textOfV]
      · simp_all [View.extract_comment, rustSub, textOfV]

/-- Witness for C6 as amended, on a concrete comment element carried by
both decoders. -/
theorem comment_text_source_amended_witness :
    textOfC (CommentContainer.extract L0 pd0 dummyUrl (CommentRoot.view 7) commentFix) =
      some (simplify L0 dummyUrl bodyFix) ∧
    textOfV (View.extract_comment L0 pd0 dummyUrl 7 commentFix) =
      some (trimStr (innerHtml bodyFix)) :=
  ⟨comment_text_source_amended.1 L0 pd0 dummyUrl (CommentRoot.view 7) commentFix
      bodyFix .nil (by rfl) (by rfl),
   comment_text_source_amended.2 L0 pd0 dummyUrl 7 commentFix
      bodyFix .nil (by rfl) (by rfl)⟩

/-! ## C8: favorite-state derivation -/

/-- C8: on a submission view whose pre-favorite pipeline succeeds, the
favorite state is derived from the mutually exclusive fav/unfav action
links.  Neither link: extraction still succeeds with no favorite state and
no fav key (unauthenticated, not an error).  Exactly one link: extraction
succeeds with `faved` false for the fav link and true for the unfav link,
and with the fav key parsed from that link URL.  Both links: the
extraction panics — a logic-contract violation, not a `ParseError`. -/
theorem view_fav_state :
    ∀ (L : UrlLib) (parseDT : Str → Option Nat) (u : Url) (d : Html) (pre : ViewPre),
      View.viewPre L parseDT u d = .ok pre →
      ((d.sel ((".favorite-nav a[href^=\x27/fav/\x27]").data) = .nil →
        d.sel ((".favorite-nav a[href^=\x27/unfav/\x27]").data) = .nil →
        View.from_html L parseDT u d = .ok (assembleView pre none none)) ∧
       (∀ e t e2 t2,
        d.sel ((".favorite-nav a[href^=\x27/fav/\x27]").data) = .cons e t →
        d.sel ((".favorite-nav a[href^=\x27/unfav/\x27]").data) = .cons e2 t2 →
        View.from_html L parseDT u d = .panic (("too many fav links!").data)) ∧
       (∀ e t h u2 k,
        d.sel ((".favorite-nav a[href^=\x27/fav/\x27]").data) = .cons e t →
        d.sel ((".favorite-nav a[href^=\x27/unfav/\x27]").data) = .nil →
        lookupA e.attrs (("href").data) = some h →
        L.join u h = some u2 →
        FavKey.tryFrom u2 = .ok k →
        View.from_html L parseDT u d = .ok (assembleView pre (some false) (some k))) ∧
       (∀ e t h u2 k,
        d.sel ((".favorite-nav a[href^=\x27/fav/\x27]").data) = .nil →
        d.sel ((".favorite-nav a[href^=\x27/unfav/\x27]").data) = .cons e t →
        lookupA e.attrs (("href").data) = some h →
        L.join u h = some u2 →
        FavKey.tryFrom u2 = .ok k →
        View.from_html L parseDT u d = .ok (assembleView pre (some true) (some k)))) := by
  intro L parseDT u d pre hpre
  refine ⟨?_, ?_, ?_, ?_⟩
  · intro h1 h2
    have hfs : View.favStage L u d = .ok (none, none) := by
      simp only [View.favStage, select_first, h1, h2, ElemList.head?]
      rfl
    simp only [View.from_html, hpre, PResult.bind_ok_l, hfs, PResult.pure_eq]
  · intro e t e2 t2 h1 h2
    have hfs : View.favStage L u d = .panic (("too many fav links!").data) := by
      simp only [View.favStage, select_first, h1, h2, ElemList.head?]
      rfl
    simp only [View.from_html, hpre, PResult.bind_ok_l, hfs, PResult.bind_panic_l]
  · intro e t h u2 k h1 h2 hhref hjoin hk
    have hfs : View.favStage L u d = .ok (some false, some k) := by
      simp only [View.favStage, select_first, h1, h2, ElemList.head?, attrE,
        hhref, joinUrl, hjoin, liftE_ok, PResult.bind_ok_l, PResult.pure_eq, hk]
    simp only [View.from_html, hpre, PResult.bind_ok_l, hfs, PResult.pure_eq]
  · intro e t h u2 k h1 h2 hhref hjoin hk
    have hfs : View.favStage L u d = .ok (some true, some k) := by
      simp only [View.favStage, select_first, h1, h2, ElemList.head?, attrE,
        hhref, joinUrl, hjoin, liftE_ok, PResult.bind_ok_l, PResult.pure_eq, hk]
    simp only [View.from_html, hpre, PResult.bind_ok_l, hfs, PResult.pure_eq]

/-- Witness for C8 on a complete concrete view document whose fav link is
present and whose unfav link is absent. -/
theorem view_fav_state_witness :
    View.from_html L8 pd0 viewUrl7 viewDoc8 =
      .ok (assembleView pre8 (some false) (some ⟨7, ("abc").data⟩)) :=
  ((view_fav_state L8 pd0 viewUrl7 viewDoc8 pre8 (by rfl)).2.2.1) favEl8 .nil
    (("/fav/7/?key=abc").data)
    ⟨some [("fav").data, ("7").data, []], [((("key").data), (("abc").data))], none⟩
    ⟨7, ("abc").data⟩ (by rfl) (by rfl) (by rfl) (by rfl) (by rfl)

/-! ## C7: journal optional blocks and the footer accessor -/

/-- C7, evaluated at the failing input: a journal document with the header
block absent and the footer block present.  Extraction succeeds and stores
the simplified footer (`F`) in the footer field, yet the footer accessor
returns `None`, because its body reads the header field. -/
theorem journal_footer_accessor_bug :
    footerFieldOf (Journal.from_html L0 pd0 journalUrl1 journalDoc7) =
      some (some (("F").data)) ∧
    footerAccOf (Journal.from_html L0 pd0 journalUrl1 journalDoc7) =
      some none := ⟨rfl, rfl⟩

/-! ## C3: listing consistency -/

theorem removeA_mem_keys {m : List (Nat × SubInfo)} {k : Nat}
    {x : SubInfo × List (Nat × SubInfo)} (h : removeA m k = some x) :
    k ∈ mapKeys m := by
  induction m generalizing x with
  | nil => simp [removeA] at h
  | cons p t ih =>
    obtain ⟨k0, v0⟩ := p
    by_cases hk : k0 = k
    · subst hk
      simp [mapKeys]
    · simp only [removeA, if_neg hk] at h
      cases hr : removeA t k with
      | none => rw [hr] at h; cases h
      | some y =>
        rw [hr] at h
        simp [mapKeys]
        exact Or.inr (by simpa [mapKeys] using ih hr)

theorem removeA_sub_pairs {m : List (Nat × SubInfo)} {k : Nat} {v : SubInfo}
    {m2 : List (Nat × SubInfo)} (h : removeA m k = some (v, m2)) :
    ∀ p ∈ m2, p ∈ m := by
  induction m generalizing m2 with
  | nil => simp [removeA] at h
  | cons q t ih =>
    obtain ⟨k0, v0⟩ := q
    by_cases hk : k0 = k
    · subst hk
      simp only [removeA, if_pos rfl] at h
      cases h
      intro p hp
      exact List.mem_cons_of_mem _ hp
    · simp only [removeA, if_neg hk] at h
      cases hr : removeA t k with
      | none => rw [hr] at h; cases h
      | some y =>
        obtain ⟨v2, t2⟩ := y
        rw [hr] at h
        cases h
        intro p hp
        rcases List.mem_cons.mp hp with hp | hp
        · subst hp; exact List.mem_cons_self _ _
        · exact List.mem_cons_of_mem _ (ih hr p hp)

theorem removeA_pair_mem {m : List (Nat × SubInfo)} {k : Nat} {v : SubInfo}
    {m2 : List (Nat × SubInfo)} (h : removeA m k = some (v, m2)) :
    (k, v) ∈ m := by
  induction m generalizing m2 with
  | nil => simp [removeA] at h
  | cons q t ih =>
    obtain ⟨k0, v0⟩ := q
    by_cases hk : k0 = k
    · subst hk
      simp only [removeA, if_pos rfl] at h
      cases h
      exact List.mem_cons_self _ _
    · simp only [removeA, if_neg hk] at h
      cases hr : removeA t k with
      | none => rw [hr] at h; cases h
      | some y =>
        obtain ⟨v2, t2⟩ := y
        rw [hr] at h
        cases h
        exact List.mem_cons_of_mem _ (ih hr)

theorem removeA_keys_sub {m : List (Nat × SubInfo)} {k : Nat} {v : SubInfo}
    {m2 : List (Nat × SubInfo)} (h : removeA m k = some (v, m2)) :
    ∀ a ∈ mapKeys m2, a ∈ mapKeys m := by
  intro a ha
  rcases List.mem_map.mp ha with ⟨p, hp, rfl⟩
  exact List.mem_map.mpr ⟨p, removeA_sub_pairs h p hp, rfl⟩

theorem assembleItems_ok_spec (L : UrlLib) (u : Url) :
    ∀ (figs : List Elem) (m : List (Nat × SubInfo)) (res : List MsgSubmission),
      Submissions.assembleItems L u figs m = .ok res →
      res.length = figs.length ∧
      ∀ item ∈ res, ∃ info, (item.view_id, info) ∈ m ∧
        item.title = info.title ∧ item.description = info.description ∧
        item.artist.name = info.username ∧ item.artist.slug = info.lower := by
  intro figs
  induction figs with
  | nil =>
    intro m res h
    simp only [Submissions.assembleItems, PResult.pure_eq] at h
    cases h
    simp
  | cons f fs ih =>
    intro m res h
    simp only [Submissions.assembleItems] at h
    cases hcls : attrE f (("class").data) with
    | error er => rw [hcls] at h; simp at h
    | ok cls =>
    rw [hcls] at h
    simp only [liftE_ok, PResult.bind_ok_l] at h
    cases hrat : figRating cls with
    | err er => rw [hrat] at h; simp at h
    | panic msg => rw [hrat] at h; simp at h
    | ok rating =>
    rw [hrat] at h
    simp only [PResult.bind_ok_l] at h
    cases hida : attrE f (("id").data) with
    | error er => rw [hida] at h; simp at h
    | ok id_attr =>
    rw [hida] at h
    simp only [liftE_ok, PResult.bind_ok_l] at h
    by_cases hsid : (("sid-").data).isPrefixOf id_attr = true
    case neg => rw [if_neg hsid] at h; simp at h
    rw [if_pos hsid] at h
    cases hpid : parseU64 (id_attr.drop 4) with
    | none => simp only [parseNat64E, hpid, liftE_error, PResult.bind_err_l] at h; cases h
    | some view_id =>
    simp only [parseNat64E, hpid, liftE_ok, PResult.bind_ok_l] at h
    cases hprev : select_first_elem f (("img").data) with
    | error er => rw [hprev] at h; simp at h
    | ok preview_elem =>
    rw [hprev] at h
    simp only [liftE_ok, PResult.bind_ok_l] at h
    cases hpat : attrE preview_elem (("src").data) with
    | error er => rw [hpat] at h; simp at h
    | ok preview_attr =>
    rw [hpat] at h
    simp only [liftE_ok, PResult.bind_ok_l] at h
    cases hjoin : L.join u preview_attr with
    | none => simp only [joinUrl, hjoin, liftE_error, PResult.bind_err_l] at h; cases h
    | some preview =>
    simp only [joinUrl, hjoin, liftE_ok, PResult.bind_ok_l] at h
    cases hrm : removeA m view_id with
    | none => simp only [hrm, unwrapOpt, PResult.bind_panic_l] at h; cases h
    | some im =>
    obtain ⟨info, m2⟩ := im
    simp only [hrm, unwrapOpt, PResult.bind_ok_l] at h
    cases hav : L.join u ((("//a.facdn.net/").data) ++ info.avatar_mtime ++
        ('/' :: []) ++ info.lower ++ ((".gif").data)) with
    | none => simp only [hav, unwrapOpt, PResult.bind_panic_l] at h; cases h
    | some avatar =>
    simp only [hav, unwrapOpt, PResult.bind_ok_l] at h
    cases hrest : Submissions.assembleItems L u fs m2 with
    | err er => rw [hrest] at h; simp at h
    | panic msg => rw [hrest] at h; simp at h
    | ok rest =>
    rw [hrest] at h
    simp only [PResult.bind_ok_l, PResult.pure_eq] at h
    cases h
    obtain ⟨hlen, hpop⟩ := ih m2 rest hrest
    constructor
    · simp [hlen]
    · intro item hmem
      rcases List.mem_cons.mp hmem with hmem | hmem
      · subst hmem
        exact ⟨info, removeA_pair_mem hrm, rfl, rfl, rfl, rfl⟩
      · obtain ⟨info2, hin, ht, hd, hn, hs⟩ := hpop item hmem
        exact ⟨info2, removeA_sub_pairs hrm _ hin, ht, hd, hn, hs⟩

theorem figRating_of_class {cls : Str}
    (h : (containsSeq (("r-adult").data) cls || containsSeq (("r-mature").data) cls ||
      containsSeq (("r-general").data) cls) = true) :
    ∃ r, figRating cls = .ok r := by
  by_cases h1 : containsSeq (("r-adult").data) cls = true
  · exact ⟨.adult, by simp [figRating, h1]⟩
  · by_cases h2 : containsSeq (("r-mature").data) cls = true
    · exact ⟨.mature, by simp [figRating, h1, h2]⟩
    · by_cases h3 : containsSeq (("r-general").data) cls = true
      · exact ⟨.general, by simp [figRating, h1, h2, h3]⟩
      · simp [h1, h2, h3] at h

theorem assembleItems_missing_panic (L : UrlLib) (u : Url)
    (hJ : ∀ (v : Url) (s : Str), (L.join v s).isSome = true) :
    ∀ (figs : List Elem) (m : List (Nat × SubInfo)),
      (∀ f ∈ figs, validFig f = true) →
      (∃ f ∈ figs, figId f ∉ mapKeys m) →
      Submissions.assembleItems L u figs m = .panic unwrapNoneMsg := by
  intro figs
  induction figs with
  | nil =>
    intro m _ hex
    obtain ⟨f, hf, _⟩ := hex
    exact absurd hf (List.not_mem_nil f)
  | cons f fs ih =>
    intro m hvalid hex
    have hvf : validFig f = true := hvalid f (List.mem_cons_self _ _)
    unfold validFig at hvf
    cases hcls : lookupA f.attrs (("class").data) with
    | none => rw [hcls] at hvf; cases hvf
    | some cls =>
    rw [hcls] at hvf
    rw [Bool.and_eq_true] at hvf
    obtain ⟨hrcls, hvf⟩ := hvf
    cases hida : lookupA f.attrs (("id").data) with
    | none => rw [hida] at hvf; cases hvf
    | some id_attr =>
    rw [hida] at hvf
    rw [Bool.and_eq_true, Bool.and_eq_true] at hvf
    obtain ⟨⟨hsid, hpids⟩, hvf⟩ := hvf
    cases himg : (f.sel (("img").data)).head? with
    | none => rw [himg] at hvf; cases hvf
    | some img =>
    rw [himg] at hvf
    have hvf2 : (lookupA img.attrs (("src").data)).isSome = true := hvf
    obtain ⟨srcv, hsrc⟩ := Option.isSome_iff_exists.mp hvf2
    obtain ⟨view_id, hpid⟩ := Option.isSome_iff_exists.mp hpids
    obtain ⟨rating, hrat⟩ := figRating_of_class hrcls
    have hfid : figId f = view_id := by
      simp [figId, hida, hpid]
    have hpj : (L.join u srcv).isSome = true := hJ u srcv
    obtain ⟨preview, hjoin⟩ := Option.isSome_iff_exists.mp hpj
    have hstep : ∀ (k : List (Nat × SubInfo) → PResult (List MsgSubmission)),
        Submissions.assembleItems L u (f :: fs) m =
          (do
            let im ← unwrapOpt (removeA m view_id)
            let (sub_info, m2) := im
            let avatar ← unwrapOpt (L.join u ((("//a.facdn.net/").data) ++
              sub_info.avatar_mtime ++ ('/' :: []) ++ sub_info.lower ++ ((".gif").data)))
            let rest ← Submissions.assembleItems L u fs m2
            pure (⟨view_id, rating, preview, sub_info.title, sub_info.description,
              ⟨avatar, sub_info.username, sub_info.lower⟩⟩ :: rest)) := by
      intro _
      simp only [Submissions.assembleItems, attrE, hcls, liftE_ok,
        PResult.bind_ok_l, hrat, hida, if_pos hsid, parseNat64E, hpid,
        select_first_elem, himg, hsrc, joinUrl, hjoin]
    rw [hstep (fun m2 => Submissions.assembleItems L u fs m2)]
    cases hrm : removeA m view_id with
    | none => simp [hrm, unwrapOpt]
    | some im =>
      obtain ⟨info, m2⟩ := im
      have hmem : view_id ∈ mapKeys m := removeA_mem_keys hrm
      obtain ⟨g, hg, hgk⟩ := hex
      rcases List.mem_cons.mp hg with hg | hg
      · subst hg
        rw [hfid] at hgk
        exact absurd hmem hgk
      · have hg2 : figId g ∉ mapKeys m2 := fun hk => hgk (removeA_keys_sub hrm _ hk)
        have hrec : Submissions.assembleItems L u fs m2 = .panic unwrapNoneMsg :=
          ih m2 (fun x hx => hvalid x (List.mem_cons_of_mem _ hx)) ⟨g, hg, hg2⟩
        simp only [hrm, unwrapOpt, PResult.bind_ok_l]
        cases hj2 : L.join u ((("//a.facdn.net/").data) ++ info.avatar_mtime ++
            ('/' :: []) ++ info.lower ++ ((".gif").data)) with
        | none => simp only [hj2, unwrapOpt, PResult.bind_panic_l]
        | some av =>
          simp only [hj2, unwrapOpt, PResult.bind_ok_l, hrec, PResult.bind_panic_l]

/-- Counterexample to C3.  On a listing document whose one gallery figure
(`sid-5`) has no entry in the embedded script JSON, the assembler does not
return any `Result` — it panics at the `unwrap` of the missing map entry —
so it is not the total `Result`-returning function the claim states. -/
theorem submissions_missing_entry_counterexample :
    Submissions.from_html L0 parseDescs3 dummyUrl listingDoc3 =
      .panic unwrapNoneMsg := by rfl

/-- C3 as amended: a successfully assembled listing never drops a figure
(one item per figure) and populates every item from the JSON entry
matching its figure id; a figure with no matching JSON entry is a hard
failure — the assembler panics on the unwrapped map lookup — rather than a
silently dropped item, but on such documents the assembler does not return
a `Result` at all. -/
theorem submissions_listing_amended :
    (∀ (L : UrlLib) (u : Url) (figs : List Elem) (m : List (Nat × SubInfo))
        (res : List MsgSubmission),
      Submissions.assembleItems L u figs m = .ok res →
      res.length = figs.length) ∧
    (∀ (L : UrlLib) (u : Url) (figs : List Elem) (m : List (Nat × SubInfo))
        (res : List MsgSubmission),
      Submissions.assembleItems L u figs m = .ok res →
      ∀ item ∈ res, ∃ info, (item.view_id, info) ∈ m ∧
        item.title = info.title ∧ item.description = info.description ∧
        item.artist.name = info.username ∧ item.artist.slug = info.lower) ∧
    (∀ (L : UrlLib) (u : Url) (figs : List Elem) (m : List (Nat × SubInfo)),
      (∀ (v : Url) (s : Str), (L.join v s).isSome = true) →
      (∀ f ∈ figs, validFig f = true) →
      (∃ f ∈ figs, figId f ∉ mapKeys m) →
      Submissions.assembleItems L u figs m = .panic unwrapNoneMsg) :=
  ⟨fun L u figs m res h => (assembleItems_ok_spec L u figs m res h).1,
   fun L u figs m res h => (assembleItems_ok_spec L u figs m res h).2,
   fun L u figs m hJ => assembleItems_missing_panic L u hJ figs m⟩

/-- Witness for C3 as amended: a valid figure with id 5 over an empty
metadata map drives the assembler into the unwrap panic. -/
theorem submissions_listing_amended_witness :
    Submissions.assembleItems L0 dummyUrl (figEl3 :: []) [] = .panic unwrapNoneMsg :=
  submissions_listing_amended.2.2 L0 dummyUrl (figEl3 :: []) []
    (fun _ _ => rfl)
    (fun f hf => by
      cases hf with
      | head => rfl
      | tail _ h => exact absurd h (List.not_mem_nil f))
    ⟨figEl3, List.mem_cons_self _ _, by simp [figId, mapKeys]⟩

end Labrat
